import Mathlib

/-!
# Allocation and reconciliation logic of the Orion IP resource

A shallow embedding of `resourceIP.Create` and `resourceIP.Read`
(`orion/resource_ip.go`).

* The decoded plan / prior state (`resourceIPReservationModel`) is the input; the
  host's conversion between its wire format and that struct is not modelled.
* The helpers `getVlanName`, `getSubnetId`, `checkIfSubnetDHCP`, `getFreeIpEntity`,
  `getIpEntityByAddress`, `updateIpEntity`, `validateAddresses` and
  `validateAddresInSubnet` are called by the source but defined elsewhere; they are
  the fields of `Client`, over an arbitrary remote state `σ`.  Each returns what its
  Go signature returns: a value together with an `error` (`none` is `nil`), a pointer
  result being an `Option`.
* Every remote call is logged, in order, in `Response.calls`.
* A nil-pointer dereference is recorded as `Response.panicked`.
-/

namespace Orion

/-! ## Data model -/

/-- The struct `Subnet`. -/
structure Subnet where
  SubnetId : Int
  Uri : String
  CIDR : Int
  GroupTypeText : String
  Address : String
  VlanName : String
deriving DecidableEq, Repr

/-- The struct `IPEntity`. -/
structure IPEntity where
  IpNodeId : Int
  SubnetId : Int
  IPAddress : String
  Comments : String
  Status : Int
  Uri : String
deriving DecidableEq, Repr

/-- The host framework's `types.String`: null, unknown, or a known value. -/
inductive StringValue where
  | null
  | unknown
  | known (value : String)
deriving DecidableEq, Repr

/-- The method `String()` of `types.String`, the human-readable rendering used by
`Read` for the identity: `<unknown>`, `<null>`, or the value formatted with `%q`,
that is, the value's escaped body between two double quotes.  The escaping of the
body is the parameter `esc`. -/
def StringValue.String (esc : String → String) : StringValue → String
  | .unknown => "<unknown>"
  | .null => "<null>"
  | .known v => "\"" ++ esc v ++ "\""

/-- The struct `resourceIPReservationModel`: the plan given to `Create`, and the
record it persists. -/
structure resourceIPReservationModel where
  ID : StringValue
  LastUpdated : StringValue
  VLANAddress : String
  VLANName : String
  VLANMask : Int
  Comment : String
  StatusCode : Int
  IPAddress : String
  AvoidDHCPScope : Bool
deriving DecidableEq, Repr

/-- A Go `error`: `none` is `nil`, `some msg` an error whose `Error()` is `msg`. -/
abbrev GoError := Option String

/-- The helpers of the inventory query layer that `Create` and `Read` call, over a
remote state `σ`.  Lookups read the state; `updateIpEntity` returns the next one. -/
structure Client (σ : Type) where
  getVlanName : σ → String → String × GoError
  getSubnetId : σ → String → Int × GoError
  checkIfSubnetDHCP : σ → String → Bool × GoError
  getFreeIpEntity : σ → Int → Option IPEntity × GoError
  getIpEntityByAddress : σ → String → Option IPEntity × GoError
  updateIpEntity : σ → IPEntity → Int → String → σ × GoError
  validateAddresses : String → GoError
  validateAddresInSubnet : String → Int → String → GoError

/-- One remote call, with its arguments. -/
inductive Call where
  | getVlanName (vlanAddress : String)
  | getSubnetId (vlanAddress : String)
  | checkIfSubnetDHCP (vlanAddress : String)
  | getFreeIpEntity (subnetId : Int)
  | getIpEntityByAddress (ipAddress : String)
  | updateIpEntity (entity : IPEntity) (status : Int) (comment : String)
deriving DecidableEq, Repr

/-- The mutating calls: `updateIpEntity` only. -/
def Call.isUpdate : Call → Bool
  | .updateIpEntity _ _ _ => true
  | _ => false

/-- An error diagnostic, as added by `resp.Diagnostics.AddError(summary, detail)`. -/
structure Diagnostic where
  summary : String
  detail : String
deriving DecidableEq, Repr

/-- What an invocation leaves behind: the remote state, the remote calls issued (in
order), whether it crashed, the diagnostics, and the response state (`none`: nothing
persisted). -/
structure Response (σ : Type) where
  remote : σ
  calls : List Call
  panicked : Bool
  diagnostics : List Diagnostic
  state : Option resourceIPReservationModel

/-! ## Diagnostics of `Create` and `Read` -/

/-- An error of `Create`: `AddError("Error creating IP reservation", detail)`. -/
def createError (detail : String) : Diagnostic :=
  ⟨"Error creating IP reservation", detail⟩

/-- An error of `Read`: `AddError("Error reading IP reservation", detail)`. -/
def readError (detail : String) : Diagnostic :=
  ⟨"Error reading IP reservation", detail⟩

/-- The detail of the name-mismatch error (the `fmt.Sprintf` of both operations). -/
def nameMismatchDetail (vlan_name computedVlanName : String) : String :=
  "There is mismatch in vlan name that you've provided ('" ++ vlan_name ++
    "') and computed value which is " ++ computedVlanName

/-- The detail of the error for a DHCP scope and no address (`DhcpScopeBlocked`). -/
def dhcpScopeBlockedDetail : String :=
  "No IP provided and avoid DHCP subnets is true, so cannot do anthing."

/-- The detail of the error for a DHCP scope and an explicit address
(`PolicyConflict`). -/
def policyConflictDetail : String :=
  "You are trying to get static IP from subnet with DHCP Scope!"

/-- The detail of the error for an address whose status is not 2
(`AlreadyAssigned`). -/
def alreadyAssignedDetail : String :=
  "You are trying to get IP that is already assigned!"

/-- The detail of the ownership error of `Read` (`OwnershipLost`). -/
def ownershipLostDetail (ip_address comment : String) : String :=
  "IP address '" ++ ip_address ++ "' is not assigned to '" ++ comment ++ "'"

/-- The detail of the DHCP error of `Read` (`PolicyDrift`). -/
def policyDriftDetail : String :=
  "avoid_dhcp_flag set to true, but subnet HAS dhcp scope"

/-- Is `sub` a run of consecutive characters of `s`? -/
def containsChars : List Char → List Char → Bool
  | [], sub => sub.isEmpty
  | c :: cs, sub => sub.isPrefixOf (c :: cs) || containsChars cs sub

/-- Go's `strings.Contains(s, substr)`. -/
def stringsContains (s substr : String) : Bool :=
  containsChars s.data substr.data

/-! ## Create -/

/-- The block `if avoid_dhcp_scope { ... }` of `Create`: the calls issued so far and
the error it returns with, if any. -/
def dhcpPolicy {σ : Type} (c : Client σ) (s : σ) (avoid_dhcp_scope : Bool)
    (vlan_address ip_address : String) (t2 : List Call) : List Call × Option Diagnostic :=
  if avoid_dhcp_scope then
    let t3 := t2 ++ [Call.checkIfSubnetDHCP vlan_address]
    match c.checkIfSubnetDHCP s vlan_address with
    | (_, some getSubnetDhcpErr) => (t3, some (createError getSubnetDhcpErr))
    | (subnetDHCP, none) =>
      if subnetDHCP = true ∧ ip_address = "" then
        (t3, some (createError dhcpScopeBlockedDetail))
      else if subnetDHCP = true ∧ ip_address ≠ "" then
        (t3, some (createError policyConflictDetail))
      else (t3, none)
  else (t2, none)

/-- The end of both arms of `Create`: the commit, then the record (address, identity
and time stamp set from the entity) stored as the response state. -/
def commitAndStore {σ : Type} (c : Client σ) (now : String) (s : σ)
    (plan : resourceIPReservationModel) (ipEntity : IPEntity) (t4 : List Call) : Response σ :=
  let t5 := t4 ++ [Call.updateIpEntity ipEntity plan.StatusCode plan.Comment]
  match c.updateIpEntity s ipEntity plan.StatusCode plan.Comment with
  | (s1, some updateErr) => ⟨s1, t5, false, [createError updateErr], none⟩
  | (s1, none) =>
    ⟨s1, t5, false, [],
      some { plan with IPAddress := ipEntity.IPAddress,
                       ID := StringValue.known ipEntity.IPAddress,
                       LastUpdated := StringValue.known now }⟩

/-- The arm `if ip_address == ""` of `Create`: take a free entity of the subnet and
commit.  A nil entity without an error crashes at `*ipEntity`. -/
def allocateFree {σ : Type} (c : Client σ) (now : String) (s : σ)
    (plan : resourceIPReservationModel) (subnetId : Int) (t3 : List Call) : Response σ :=
  let t4 := t3 ++ [Call.getFreeIpEntity subnetId]
  match c.getFreeIpEntity s subnetId with
  | (_, some getIpError) => ⟨s, t4, false, [createError getIpError], none⟩
  | (none, none) => ⟨s, t4, true, [], none⟩
  | (some ipEntity, none) => commitAndStore c now s plan ipEntity t4

/-- The arm `else` of `Create`: validate the explicit address, look it up, require
status 2, commit.  A nil entity without an error crashes at `ipEntity.Status`. -/
def claimExplicit {σ : Type} (c : Client σ) (now : String) (s : σ)
    (plan : resourceIPReservationModel) (ip_address : String) (t3 : List Call) : Response σ :=
  match c.validateAddresses ip_address with
  | some ipError => ⟨s, t3, false, [createError ipError], none⟩
  | none =>
  match c.validateAddresInSubnet plan.VLANAddress plan.VLANMask ip_address with
  | some ipSubnetError => ⟨s, t3, false, [createError ipSubnetError], none⟩
  | none =>
  let t4 := t3 ++ [Call.getIpEntityByAddress ip_address]
  match c.getIpEntityByAddress s ip_address with
  | (_, some getIpError) => ⟨s, t4, false, [createError getIpError], none⟩
  | (none, none) => ⟨s, t4, true, [], none⟩
  | (some ipEntity, none) =>
  if ipEntity.Status ≠ 2 then
    ⟨s, t4, false, [createError alreadyAssignedDetail], none⟩
  else commitAndStore c now s plan ipEntity t4

/-- The method `resourceIP.Create`, on the decoded plan; `now` is the formatted
current time. -/
def Create {σ : Type} (c : Client σ) (now : String) (s : σ)
    (plan : resourceIPReservationModel) : Response σ :=
  let vlan_address := plan.VLANAddress
  let avoid_dhcp_scope := plan.AvoidDHCPScope
  let ip_address := plan.IPAddress
  let vlan_name := plan.VLANName
  let t1 := [Call.getVlanName vlan_address]
  match c.getVlanName s vlan_address with
  | (_, some VlanNameErr) => ⟨s, t1, false, [createError VlanNameErr], none⟩
  | (computedVlanName, none) =>
  if vlan_name ≠ "" ∧ vlan_name ≠ computedVlanName then
    ⟨s, t1, false, [createError (nameMismatchDetail vlan_name computedVlanName)], none⟩
  else
  let plan := if vlan_name = "" then { plan with VLANName := computedVlanName } else plan
  let t2 := t1 ++ [Call.getSubnetId vlan_address]
  match c.getSubnetId s vlan_address with
  | (_, some getSubnetErr) => ⟨s, t2, false, [createError getSubnetErr], none⟩
  | (subnetId, none) =>
  match dhcpPolicy c s avoid_dhcp_scope vlan_address ip_address t2 with
  | (t3, some d) => ⟨s, t3, false, [d], none⟩
  | (t3, none) =>
  if ip_address = "" then allocateFree c now s plan subnetId t3
  else claimExplicit c now s plan ip_address t3

/-! ## Read -/

/-- The method `resourceIP.Read`, on the decoded prior state; the response state
starts as the prior state.  The error of `getIpEntityByAddress` is discarded by the
source (`ipEntity,_ :=`), and `ipEntity.Comments` dereferences the pointer. -/
def Read {σ : Type} (c : Client σ) (esc : String → String) (s : σ)
    (state : resourceIPReservationModel) : Response σ :=
  let id := state.ID.String esc
  let vlan_address := state.VLANAddress
  let comment := state.Comment
  let avoid_dhcp_scope := state.AvoidDHCPScope
  let ip_address := state.IPAddress
  let vlan_name := state.VLANName
  if id = "dhcp" ∧ ip_address = "dhcp" then ⟨s, [], false, [], some state⟩
  else
  let t1 := [Call.getVlanName vlan_address]
  match c.getVlanName s vlan_address with
  | (_, some err) => ⟨s, t1, false, [readError err], some state⟩
  | (computedVlanName, none) =>
  if vlan_name ≠ "" ∧ vlan_name ≠ computedVlanName then
    ⟨s, t1, false, [readError (nameMismatchDetail vlan_name computedVlanName)], some state⟩
  else
  let t2 := t1 ++ [Call.getIpEntityByAddress ip_address]
  match (c.getIpEntityByAddress s ip_address).1 with
  | none => ⟨s, t2, true, [], some state⟩
  | some ipEntity =>
  if stringsContains ipEntity.Comments comment = false ∧ ipEntity.Status ≠ 2 then
    ⟨s, t2, false, [readError (ownershipLostDetail ip_address comment)], some state⟩
  else
  let t3 := t2 ++ [Call.checkIfSubnetDHCP vlan_address]
  match c.checkIfSubnetDHCP s vlan_address with
  | (_, some err) => ⟨s, t3, false, [readError err], some state⟩
  | (dhcpScope, none) =>
  if avoid_dhcp_scope = true ∧ dhcpScope = true then
    ⟨s, t3, false, [readError policyDriftDetail], some state⟩
  else
  ⟨s, t3, false, [], some { state with IPAddress := ipEntity.IPAddress }⟩

/-! ## Update and Delete -/

/-- The method `resourceIP.Update`: its body is empty.  It reads neither the plan nor
the prior state, calls no helper and adds no diagnostic; the response state is left as
the host prepared it, the prior state. -/
def Update {σ : Type} (_c : Client σ) (s : σ)
    (_plan state : resourceIPReservationModel) : Response σ :=
  ⟨s, [], false, [], some state⟩

/-- The method `resourceIP.Delete`: its body is empty.  It calls no helper and adds no
diagnostic; the response state is left as the host prepared it, the prior state (the
host drops the record afterwards). -/
def Delete {σ : Type} (_c : Client σ) (s : σ)
    (state : resourceIPReservationModel) : Response σ :=
  ⟨s, [], false, [], some state⟩

/-- The DHCP-scope lookups among the calls. -/
def Call.isDhcpLookup : Call → Bool
  | .checkIfSubnetDHCP _ => true
  | _ => false

/-! ## The inventory and its lookups -/

/-- Modelled from the spec: the remote inventory behind the missing helpers, the
`Subnet` rows and the `IPEntity` rows it holds (§3). -/
structure Inventory where
  subnets : List Subnet
  ipNodes : List IPEntity
deriving DecidableEq, Repr

/-- Modelled from the spec: a lookup that expects exactly one row (§4.2) treats zero
rows as `NotFound` and more than one row as `AmbiguousResult`, never picking one; the
Go helper then returns its zero value with the error. -/
def oneRow {α β : Type} (rows : List α) (zero : β) (f : α → β) : β × GoError :=
  match rows with
  | [] => (zero, some "NotFound")
  | [x] => (f x, none)
  | _ :: _ :: _ => (zero, some "AmbiguousResult")

/-- Modelled from the spec: the rows of the query primitive (§6) filtered by subnet
address, for the missing subnet lookups. -/
def subnetRows (inv : Inventory) (subnetAddr : String) : List Subnet :=
  inv.subnets.filter (fun x => x.Address = subnetAddr)

/-- Modelled from the spec: the rows of the query primitive (§6) filtered by IP
address, for the missing helper `getIpEntityByAddress`. -/
def ipRows (inv : Inventory) (addr : String) : List IPEntity :=
  inv.ipNodes.filter (fun x => x.IPAddress = addr)

/-- Modelled from the spec: `resolveVlanName` (the missing helper `getVlanName`), the
display name of the subnet with the given base address. -/
def resolveVlanName (inv : Inventory) (subnetAddr : String) : String × GoError :=
  oneRow (subnetRows inv subnetAddr) "" (fun x => x.VlanName)

/-- Modelled from the spec: `resolveSubnetId` (the missing helper `getSubnetId`). -/
def resolveSubnetId (inv : Inventory) (subnetAddr : String) : Int × GoError :=
  oneRow (subnetRows inv subnetAddr) 0 (fun x => x.SubnetId)

/-- Modelled from the spec: `isDhcpScope` (the missing helper `checkIfSubnetDHCP`),
true iff the subnet's classifier indicates a DHCP pool; which classifier texts do is
the parameter `dhcpKind`. -/
def isDhcpScope (dhcpKind : String → Bool) (inv : Inventory) (subnetAddr : String) :
    Bool × GoError :=
  oneRow (subnetRows inv subnetAddr) false (fun x => dhcpKind x.GroupTypeText)

/-- Modelled from the spec: `findFreeAddress` (the missing helper `getFreeIpEntity`),
the first `IPEntity` of the subnet whose status is 2, in the inventory's order;
`NoFreeAddress` when there is none. -/
def findFreeAddress (inv : Inventory) (subnetId : Int) : Option IPEntity × GoError :=
  match inv.ipNodes.find? (fun e => e.SubnetId = subnetId ∧ e.Status = 2) with
  | some e => (some e, none)
  | none => (none, some "NoFreeAddress")

/-- Modelled from the spec: `findByAddress` (the missing helper
`getIpEntityByAddress`). -/
def findByAddress (inv : Inventory) (addr : String) : Option IPEntity × GoError :=
  oneRow (ipRows inv addr) none some

/-- Modelled from the spec: the partial update of `commit` (the missing helper
`updateIpEntity`) on one address record `x`; the status and comment fields are set
when `x` is the entity identified by the URI, nothing otherwise. -/
def applyUpdate (entity : IPEntity) (newStatus : Int) (newComment : String) (x : IPEntity) :
    IPEntity :=
  if x.Uri = entity.Uri then { x with Status := newStatus, Comments := newComment } else x

/-- Modelled from the spec: `commit` (the missing helper `updateIpEntity`), a partial
update of only the status and comment fields of the entity identified by its URI. -/
def commit (inv : Inventory) (entity : IPEntity) (newStatus : Int) (newComment : String) :
    Inventory × GoError :=
  ({ inv with ipNodes := inv.ipNodes.map (applyUpdate entity newStatus newComment) }, none)

/-! ## Address arithmetic -/

/-- Modelled from the spec: the segments of a dotted-decimal string, for the missing
helper `validateAddresses`. -/
def splitDots : List Char → List (List Char)
  | [] => [[]]
  | c :: cs =>
    if c = '.' then [] :: splitDots cs
    else match splitDots cs with
      | [] => [[c]]
      | seg :: rest => (c :: seg) :: rest

/-- Modelled from the spec: the value of a run of decimal digits, `none` on a
non-numeric token, for the missing helper `validateAddresses`. -/
def digitsValue : List Char → Nat → Option Nat
  | [], acc => some acc
  | c :: cs, acc =>
    if c.isDigit then digitsValue cs (10 * acc + (c.toNat - '0'.toNat)) else none

/-- Modelled from the spec: one octet of a dotted-decimal address, a non-empty run of
digits of value at most 255, for the missing helper `validateAddresses`. -/
def parseOctet (seg : List Char) : Option Nat :=
  if seg.isEmpty then none
  else match digitsValue seg 0 with
    | some n => if n ≤ 255 then some n else none
    | none => none

/-- Modelled from the spec: the 32-bit value of a dotted-decimal IPv4 address of four
octets, for the missing helper `validateAddresses`. -/
def parseIPv4 (s : String) : Option Nat :=
  match (splitDots s.data).map parseOctet with
  | [some a, some b, some c, some d] => some (((a * 256 + b) * 256 + c) * 256 + d)
  | _ => none

/-- Modelled from the spec: `validateAddress` (the missing helper
`validateAddresses`) fails with `InvalidFormat` on a string that is not a
dotted-decimal IPv4 address. -/
def validateAddress (s : String) : GoError :=
  if (parseIPv4 s).isSome then none else some "InvalidFormat"

/-- Modelled from the spec: `validateAddressInSubnet` (the missing helper
`validateAddresInSubnet`) computes the network range of `subnetAddr`/`maskWidth` and
checks that `addr` falls within it, edges included. -/
def validateAddressInSubnet (subnetAddr : String) (maskWidth : Int) (addr : String) :
    GoError :=
  match parseIPv4 subnetAddr, parseIPv4 addr with
  | some n, some a =>
    if 0 ≤ maskWidth ∧ maskWidth ≤ 32 then
      if n / 2 ^ (32 - maskWidth.toNat) = a / 2 ^ (32 - maskWidth.toNat) then none
      else some "NotInSubnet"
    else some "InvalidFormat"
  | _, _ => some "InvalidFormat"

/-- Modelled from the spec: the missing helpers together, as the lookups of the
inventory above. -/
def inventoryClient (dhcpKind : String → Bool) : Client Inventory where
  getVlanName := resolveVlanName
  getSubnetId := resolveSubnetId
  checkIfSubnetDHCP := isDhcpScope dhcpKind
  getFreeIpEntity := findFreeAddress
  getIpEntityByAddress := findByAddress
  updateIpEntity := commit
  validateAddresses := validateAddress
  validateAddresInSubnet := validateAddressInSubnet

/-! ## Worked inventories -/

/-- The classifier text taken to mark a DHCP pool in the worked examples. -/
def dhcpScopeText (t : String) : Bool := t = "DHCP Scope"

/-- The subnet `10.0.0.0/24`, named `prod-a`. -/
def prodA : Subnet :=
  ⟨1, "swis://subnet/1", 24, "Subnet", "10.0.0.0", "prod-a"⟩

/-- The free address record `10.0.0.5` of `prodA`. -/
def free5 : IPEntity :=
  ⟨105, 1, "10.0.0.5", "", 2, "swis://ipnode/105"⟩

/-- The inventory of the spec's example: `prodA` with one free entity. -/
def exampleInventory : Inventory := ⟨[prodA], [free5]⟩

/-- The request of the spec's example: subnet `10.0.0.0`, mask 24, VLAN name
`prod-a`, no DHCP avoidance, no explicit address. -/
def exampleRequest : resourceIPReservationModel :=
  { ID := .null, LastUpdated := .null, VLANAddress := "10.0.0.0", VLANName := "prod-a",
    VLANMask := 24, Comment := "web-01", StatusCode := 1, IPAddress := "",
    AvoidDHCPScope := false }

/-! ## Notions used by the statements -/

/-- The invocation returned the record `rec`: no crash, no error diagnostic, and
`rec` as the response state. -/
def Response.returned {σ : Type} (r : Response σ) (rec : resourceIPReservationModel) : Prop :=
  r.panicked = false ∧ r.diagnostics = [] ∧ r.state = some rec

instance {σ : Type} (r : Response σ) (rec : resourceIPReservationModel) :
    Decidable (r.returned rec) :=
  inferInstanceAs (Decidable (r.panicked = false ∧ r.diagnostics = [] ∧ r.state = some rec))

/-- The mutating calls among the calls of an invocation. -/
def Response.commits {σ : Type} (r : Response σ) : List Call :=
  r.calls.filter Call.isUpdate

/-- The plan once the resolved VLAN name has been adopted. -/
def withName (plan : resourceIPReservationModel) (name : String) : resourceIPReservationModel :=
  { plan with VLANName := name }

/-- The record that `Create` stores for the entity `e`. -/
def recordOf (plan : resourceIPReservationModel) (now : String) (e : IPEntity) :
    resourceIPReservationModel :=
  { plan with IPAddress := e.IPAddress, ID := StringValue.known e.IPAddress,
              LastUpdated := StringValue.known now }

/-- The time stamp of the worked examples. -/
def exampleNow : String := "Monday, 02-Nov-26 10:00:00 UTC"

/-- The record of the spec's example: address `10.0.0.5`, VLAN name `prod-a`. -/
def exampleRecord : resourceIPReservationModel :=
  { exampleRequest with ID := .known "10.0.0.5", IPAddress := "10.0.0.5",
                        LastUpdated := .known exampleNow }

/-! ## The checks of `Create`, in the order of the procedure -/

/-- The calls `Create` has issued once the name, subnet-id and DHCP-policy steps have
passed. -/
def policyCalls (plan : resourceIPReservationModel) : List Call :=
  [Call.getVlanName plan.VLANAddress, Call.getSubnetId plan.VLANAddress] ++
    (if plan.AvoidDHCPScope = true then [Call.checkIfSubnetDHCP plan.VLANAddress] else [])

/-- One check of the Create procedure: the remote call it issues, if any, and the
error it fails with, if it fails. -/
structure Check where
  call : Option Call
  failure : Option Diagnostic
deriving DecidableEq, Repr

/-- The checks that precede the commit, in the fixed order of the Create procedure
(§4.3): VLAN-name resolution, name mismatch, subnet-id resolution, then with
`avoidDhcpScope` the DHCP-scope lookup and the DHCP policy, then either the free
address lookup, or address syntax, subnet membership, address lookup and status. -/
def createChecks {σ : Type} (c : Client σ) (s : σ) (plan : resourceIPReservationModel) :
    List Check :=
  let a := plan.VLANAddress
  let ip := plan.IPAddress
  let name := c.getVlanName s a
  let sid := c.getSubnetId s a
  let dhcp := c.checkIfSubnetDHCP s a
  let free := c.getFreeIpEntity s sid.1
  let found := c.getIpEntityByAddress s ip
  [ ⟨some (Call.getVlanName a), name.2.map createError⟩,
    ⟨none, if plan.VLANName ≠ "" ∧ plan.VLANName ≠ name.1 then
        some (createError (nameMismatchDetail plan.VLANName name.1)) else none⟩,
    ⟨some (Call.getSubnetId a), sid.2.map createError⟩ ] ++
  (if plan.AvoidDHCPScope = true then
    [ ⟨some (Call.checkIfSubnetDHCP a), dhcp.2.map createError⟩,
      ⟨none, if dhcp.1 = true then
          some (createError (if ip = "" then dhcpScopeBlockedDetail else policyConflictDetail))
        else none⟩ ]
   else []) ++
  (if ip = "" then
    [ ⟨some (Call.getFreeIpEntity sid.1), free.2.map createError⟩ ]
   else
    [ ⟨none, (c.validateAddresses ip).map createError⟩,
      ⟨none, (c.validateAddresInSubnet a plan.VLANMask ip).map createError⟩,
      ⟨some (Call.getIpEntityByAddress ip), found.2.map createError⟩,
      ⟨none, match found.1 with
        | some e => if e.Status ≠ 2 then some (createError alreadyAssignedDetail) else none
        | none => none⟩ ])

/-- Running a list of checks in order after the calls `t`: the calls issued up to and
including the first failing check, and its error; `none` when every check passes. -/
def firstFailure : List Check → List Call → Option (List Call × Diagnostic)
  | [], _ => none
  | k :: ks, t =>
    match k.failure with
    | some d => some (t ++ k.call.toList, d)
    | none => firstFailure ks (t ++ k.call.toList)

/-- The address record `10.0.0.5` of `prodA`, assigned to `db-01`. -/
def taken5 : IPEntity :=
  ⟨105, 1, "10.0.0.5", "db-01", 1, "swis://ipnode/105"⟩

/-- The subnet `prodA` whose only address record is assigned. -/
def assignedInventory : Inventory := ⟨[prodA], [taken5]⟩

/-- A request for the explicit address `10.0.0.5` of `10.0.0.0/24`. -/
def explicitRequest : resourceIPReservationModel :=
  { exampleRequest with IPAddress := "10.0.0.5" }

/-- The subnet `10.0.2.0/24`, a DHCP scope. -/
def labDhcp : Subnet :=
  ⟨3, "swis://subnet/3", 24, "DHCP Scope", "10.0.2.0", "lab-dhcp"⟩

/-- The free address record `10.0.2.7` of `labDhcp`. -/
def free7 : IPEntity :=
  ⟨207, 3, "10.0.2.7", "", 2, "swis://ipnode/207"⟩

/-- An inventory with a static subnet and a DHCP scope. -/
def dhcpInventory : Inventory := ⟨[prodA, labDhcp], [free5, free7]⟩

/-- A request against the DHCP scope, with DHCP avoidance and no explicit address. -/
def dhcpRequest : resourceIPReservationModel :=
  { exampleRequest with VLANAddress := "10.0.2.0", VLANName := "", AvoidDHCPScope := true }

/-- A request against the DHCP scope, with DHCP avoidance and an explicit address. -/
def dhcpExplicitRequest : resourceIPReservationModel :=
  { dhcpRequest with IPAddress := "10.0.2.7" }

/-- A request against `10.0.0.0` that expects the VLAN name `prod-b`. -/
def mismatchRequest : resourceIPReservationModel :=
  { exampleRequest with VLANName := "prod-b" }

/-- A request against `10.0.0.0` that expects no particular VLAN name. -/
def unnamedRequest : resourceIPReservationModel :=
  { exampleRequest with VLANName := "" }

/-- The subnet `10.0.1.0/24`, named `prod-b`. -/
def prodB : Subnet :=
  ⟨2, "swis://subnet/2", 24, "Subnet", "10.0.1.0", "prod-b"⟩

/-- The free address record `10.0.1.5` of `prodB`. -/
def freeB5 : IPEntity :=
  ⟨215, 2, "10.0.1.5", "", 2, "swis://ipnode/215"⟩

/-- An inventory with the two neighbouring subnets `prodA` and `prodB`. -/
def twoSubnets : Inventory := ⟨[prodA, prodB], [free5, freeB5]⟩

/-- A request against `10.0.0.0` for the explicit address `10.0.1.5`, with the mask
width 16 supplied by the caller. -/
def wideMaskRequest : resourceIPReservationModel :=
  { exampleRequest with VLANMask := 16, IPAddress := "10.0.1.5" }

/-- The record `Create` returns for `wideMaskRequest`. -/
def wideMaskRecord : resourceIPReservationModel :=
  { wideMaskRequest with ID := .known "10.0.1.5", LastUpdated := .known exampleNow }

/-- The statement of C7 for one `Create`: the recorded address is the address of the
entity `Create` looked up (by the free-address lookup for the resolved subnet id, or
by the explicit address), that entity had status 2, and its `SubnetId` is the subnet
id resolved from the request's subnet address. -/
def recordedFromSourceSubnet {σ : Type} (c : Client σ) (s : σ)
    (plan rec : resourceIPReservationModel) : Prop :=
  ∃ e : IPEntity,
    (if plan.IPAddress = "" then
      (c.getFreeIpEntity s (c.getSubnetId s plan.VLANAddress).1).1 = some e
     else (c.getIpEntityByAddress s plan.IPAddress).1 = some e) ∧
    rec.IPAddress = e.IPAddress ∧ e.Status = 2 ∧
    e.SubnetId = (c.getSubnetId s plan.VLANAddress).1

/-- The record is the DHCP placeholder: its persisted identity and its stored address
are both the string `dhcp`. -/
def isPlaceholder (st : resourceIPReservationModel) : Prop :=
  st.ID = StringValue.known "dhcp" ∧ st.IPAddress = "dhcp"

instance (st : resourceIPReservationModel) : Decidable (isPlaceholder st) :=
  inferInstanceAs (Decidable (st.ID = StringValue.known "dhcp" ∧ st.IPAddress = "dhcp"))

/-- The client `c` with the error of its address lookup replaced by `nil`. -/
def Client.dropLookupError {σ : Type} (c : Client σ) : Client σ :=
  { c with getIpEntityByAddress := fun s a => ((c.getIpEntityByAddress s a).1, none) }

/-- The address record `10.0.0.5` of `prodA`, assigned with a comment that contains
`web-01`. -/
def owned5 : IPEntity :=
  ⟨105, 1, "10.0.0.5", "web-01 (reserved)", 1, "swis://ipnode/105"⟩

/-- The subnet `prodA` whose address record is assigned to `web-01`. -/
def ownedInventory : Inventory := ⟨[prodA], [owned5]⟩

/-- A DHCP placeholder record for the DHCP scope `10.0.2.0`. -/
def dhcpPlaceholder : resourceIPReservationModel :=
  { dhcpRequest with ID := .known "dhcp", IPAddress := "dhcp", VLANName := "lab-dhcp",
                     LastUpdated := .known exampleNow }

/-- A record of a reservation of `10.0.0.9`, an address the inventory does not hold. -/
def missingRecord : resourceIPReservationModel :=
  { exampleRequest with ID := .known "10.0.0.9", IPAddress := "10.0.0.9",
                        LastUpdated := .known exampleNow }

/-- The subnet `10.0.0.4/30`, a range nested in `prodA`. -/
def nestedNet : Subnet :=
  ⟨4, "swis://subnet/4", 30, "Subnet", "10.0.0.4", "prod-a-mgmt"⟩

/-- The address record `10.0.0.5` of `nestedNet`, assigned to `db-01`. -/
def nested5 : IPEntity :=
  ⟨405, 4, "10.0.0.5", "db-01", 1, "swis://ipnode/405"⟩

/-- An inventory in which the address `10.0.0.5` has a record in two subnets: assigned
in `nestedNet`, free in `prodA`. -/
def overlapInventory : Inventory := ⟨[prodA, nestedNet], [nested5, free5]⟩

/-- The inventory of the spec's example after `10.0.0.5` has been claimed for
`web-01` with status 1. -/
def claimedInventory : Inventory :=
  ⟨[prodA], [⟨105, 1, "10.0.0.5", "web-01", 1, "swis://ipnode/105"⟩]⟩

/-- A plan that changes the comment and the status of the reservation of `10.0.0.5`. -/
def changedPlan : resourceIPReservationModel :=
  { exampleRecord with Comment := "web-02", StatusCode := 4 }

/-- A record of a reservation of `10.0.2.7` in the subnet `10.0.2.0`, made with DHCP
avoidance, as persisted. -/
def driftRecord : resourceIPReservationModel :=
  { dhcpExplicitRequest with ID := .known "10.0.2.7", VLANName := "lab-dhcp",
                             LastUpdated := .known exampleNow }

/-- The inventory client with a DHCP-scope lookup that fails on every call (a
transport failure of that query). -/
def dhcpLookupDown : Client Inventory :=
  { inventoryClient dhcpScopeText with
    checkIfSubnetDHCP := fun _ _ => (false, some "TransportError") }

/-! ## Inversion of a successful `Create` -/

/-- When the commit stage stores a record, the update succeeded and the response is the
stored record after one more call. -/
theorem commitAndStore_state {σ : Type} (c : Client σ) (now : String) (s : σ)
    (plan rec : resourceIPReservationModel) (e : IPEntity) (t : List Call)
    (h : (commitAndStore c now s plan e t).state = some rec) :
    ∃ s1, c.updateIpEntity s e plan.StatusCode plan.Comment = (s1, none) ∧
      commitAndStore c now s plan e t =
        ⟨s1, t ++ [Call.updateIpEntity e plan.StatusCode plan.Comment], false, [],
          some (recordOf plan now e)⟩ := by
  obtain ⟨r, hu⟩ : ∃ r, c.updateIpEntity s e plan.StatusCode plan.Comment = r := ⟨_, rfl⟩
  rcases r with ⟨s1, _ | err⟩
  · exact ⟨s1, hu, by simp [commitAndStore, hu, recordOf]⟩
  · simp [commitAndStore, hu] at h

/-- When the automatic arm stores a record, the free-address lookup returned an entity
without error and the update succeeded. -/
theorem allocateFree_state {σ : Type} (c : Client σ) (now : String) (s : σ)
    (plan rec : resourceIPReservationModel) (sid : Int) (t : List Call)
    (h : (allocateFree c now s plan sid t).state = some rec) :
    ∃ e s1, c.getFreeIpEntity s sid = (some e, none) ∧
      c.updateIpEntity s e plan.StatusCode plan.Comment = (s1, none) ∧
      allocateFree c now s plan sid t =
        ⟨s1, t ++ [Call.getFreeIpEntity sid, Call.updateIpEntity e plan.StatusCode plan.Comment],
          false, [], some (recordOf plan now e)⟩ := by
  obtain ⟨r, hf⟩ : ∃ r, c.getFreeIpEntity s sid = r := ⟨_, rfl⟩
  rcases r with ⟨_ | e, _ | err⟩
  · simp [allocateFree, hf] at h
  · simp [allocateFree, hf] at h
  · simp only [allocateFree, hf] at h
    obtain ⟨s1, hu, heq⟩ := commitAndStore_state c now s plan rec e _ h
    exact ⟨e, s1, hf, hu, by simp only [allocateFree, hf]; simp [heq]⟩
  · simp [allocateFree, hf] at h

/-- When the explicit arm stores a record, both validations passed, the lookup returned
an entity of status 2 and the update succeeded. -/
theorem claimExplicit_state {σ : Type} (c : Client σ) (now : String) (s : σ)
    (plan rec : resourceIPReservationModel) (ip : String) (t : List Call)
    (h : (claimExplicit c now s plan ip t).state = some rec) :
    ∃ e s1, c.validateAddresses ip = none ∧
      c.validateAddresInSubnet plan.VLANAddress plan.VLANMask ip = none ∧
      c.getIpEntityByAddress s ip = (some e, none) ∧ e.Status = 2 ∧
      c.updateIpEntity s e plan.StatusCode plan.Comment = (s1, none) ∧
      claimExplicit c now s plan ip t =
        ⟨s1, t ++ [Call.getIpEntityByAddress ip,
                   Call.updateIpEntity e plan.StatusCode plan.Comment],
          false, [], some (recordOf plan now e)⟩ := by
  obtain ⟨r, hv⟩ : ∃ r, c.validateAddresses ip = r := ⟨_, rfl⟩
  rcases r with _ | err
  swap
  · simp [claimExplicit, hv] at h
  obtain ⟨r, hm⟩ : ∃ r, c.validateAddresInSubnet plan.VLANAddress plan.VLANMask ip = r := ⟨_, rfl⟩
  rcases r with _ | err
  swap
  · simp [claimExplicit, hv, hm] at h
  obtain ⟨r, ha⟩ : ∃ r, c.getIpEntityByAddress s ip = r := ⟨_, rfl⟩
  rcases r with ⟨_ | e, _ | err⟩
  · simp [claimExplicit, hv, hm, ha] at h
  · simp [claimExplicit, hv, hm, ha] at h
  · by_cases hst : e.Status = 2
    · simp only [claimExplicit, hv, hm, ha, hst, ne_eq, not_true_eq_false, if_false] at h
      obtain ⟨s1, hu, heq⟩ := commitAndStore_state c now s plan rec e _ h
      exact ⟨e, s1, hv, hm, ha, hst, hu, by
        simp only [claimExplicit, hv, hm, ha, hst, ne_eq, not_true_eq_false, if_false]
        simp [heq]⟩
    · simp [claimExplicit, hv, hm, ha, hst] at h
  · simp [claimExplicit, hv, hm, ha] at h

/-- When the DHCP block lets `Create` continue, the lookup, if made, reported no DHCP
scope. -/
theorem dhcpPolicy_pass {σ : Type} (c : Client σ) (s : σ) (avoid : Bool)
    (a ip : String) (t2 t3 : List Call)
    (h : dhcpPolicy c s avoid a ip t2 = (t3, none)) :
    (avoid = true → c.checkIfSubnetDHCP s a = (false, none)) ∧
    t3 = t2 ++ (if avoid = true then [Call.checkIfSubnetDHCP a] else []) := by
  cases avoid
  · simp [dhcpPolicy] at h
    simp [h]
  · rcases hd : c.checkIfSubnetDHCP s a with ⟨b, _ | err⟩
    · cases b
      · simp [dhcpPolicy, hd] at h
        simp [h]
      · by_cases hip : ip = "" <;> simp [dhcpPolicy, hd, hip] at h
    · simp [dhcpPolicy, hd] at h

/-- Inversion of a `Create` whose response state is set: every step passed, and the
whole response is determined. -/
theorem Create_state_inv {σ : Type} (c : Client σ) (now : String) (s : σ)
    (plan rec : resourceIPReservationModel)
    (h : (Create c now s plan).state = some rec) :
    ∃ name sid e s1,
      c.getVlanName s plan.VLANAddress = (name, none) ∧
      (plan.VLANName = "" ∨ plan.VLANName = name) ∧
      c.getSubnetId s plan.VLANAddress = (sid, none) ∧
      (plan.AvoidDHCPScope = true → c.checkIfSubnetDHCP s plan.VLANAddress = (false, none)) ∧
      (if plan.IPAddress = "" then c.getFreeIpEntity s sid = (some e, none)
       else c.validateAddresses plan.IPAddress = none ∧
         c.validateAddresInSubnet plan.VLANAddress plan.VLANMask plan.IPAddress = none ∧
         c.getIpEntityByAddress s plan.IPAddress = (some e, none) ∧ e.Status = 2) ∧
      c.updateIpEntity s e plan.StatusCode plan.Comment = (s1, none) ∧
      Create c now s plan =
        ⟨s1,
         [Call.getVlanName plan.VLANAddress, Call.getSubnetId plan.VLANAddress] ++
          (if plan.AvoidDHCPScope = true then [Call.checkIfSubnetDHCP plan.VLANAddress] else []) ++
          [if plan.IPAddress = "" then Call.getFreeIpEntity sid
           else Call.getIpEntityByAddress plan.IPAddress,
           Call.updateIpEntity e plan.StatusCode plan.Comment],
         false, [], some (recordOf (withName plan name) now e)⟩ := by
  obtain ⟨r, hv⟩ : ∃ r, c.getVlanName s plan.VLANAddress = r := ⟨_, rfl⟩
  rcases r with ⟨name, _ | err⟩
  swap
  · simp [Create, hv] at h
  by_cases hn : plan.VLANName ≠ "" ∧ plan.VLANName ≠ name
  · simp [Create, hv, hn] at h
  obtain ⟨r, hs⟩ : ∃ r, c.getSubnetId s plan.VLANAddress = r := ⟨_, rfl⟩
  rcases r with ⟨sid, _ | err⟩
  swap
  · simp [Create, hv, hn, hs] at h
  obtain ⟨r, hd⟩ : ∃ r, dhcpPolicy c s plan.AvoidDHCPScope plan.VLANAddress plan.IPAddress
      ([Call.getVlanName plan.VLANAddress] ++ [Call.getSubnetId plan.VLANAddress]) = r := ⟨_, rfl⟩
  rcases r with ⟨t3, _ | d⟩
  swap
  · simp only [List.singleton_append] at hd
    simp [Create, hv, hn, hs, hd] at h
  obtain ⟨hdh, ht3⟩ := dhcpPolicy_pass c s _ _ _ _ _ hd
  have hname : plan.VLANName = "" ∨ plan.VLANName = name := by
    by_cases h1 : plan.VLANName = ""
    · exact Or.inl h1
    · by_cases h2 : plan.VLANName = name
      · exact Or.inr h2
      · exact absurd ⟨h1, h2⟩ hn
  have hplan : (if plan.VLANName = "" then { plan with VLANName := name } else plan)
      = withName plan name := by
    rcases hname with h1 | h2
    · simp [h1, withName]
    · by_cases h1 : plan.VLANName = ""
      · simp [h1, withName]
      · simp only [h1, if_false, withName]
        cases plan
        simp at h2 ⊢
        exact h2
  simp only [List.singleton_append] at hd
  have hC : Create c now s plan =
      if plan.IPAddress = "" then allocateFree c now s (withName plan name) sid t3
      else claimExplicit c now s (withName plan name) plan.IPAddress t3 := by
    simp only [Create, hv, hn, hs, hd, if_false, hplan, List.singleton_append]
  rw [hC] at h ⊢
  by_cases hip : plan.IPAddress = ""
  · simp only [hip, if_true] at h ⊢
    obtain ⟨e, s1, hf, hu, heq⟩ := allocateFree_state c now s _ rec sid t3 h
    refine ⟨name, sid, e, s1, hv, hname, hs, hdh, by simpa [hip] using hf, hu, ?_⟩
    rw [heq, ht3]
    simp [withName]
  · simp only [hip, if_false] at h ⊢
    obtain ⟨e, s1, h1, h2, h3, h4, hu, heq⟩ := claimExplicit_state c now s _ rec _ t3 h
    refine ⟨name, sid, e, s1, hv, hname, hs, hdh, by simpa [hip] using ⟨h1, h2, h3, h4⟩, hu, ?_⟩
    rw [heq, ht3]
    simp [withName]

/-! ## C1: a successful `Create` commits once, on the selected entity -/

/-- C1: for every request on which `Create` succeeds, exactly one commit
(`updateIpEntity`) was issued, on the selected entity (the one returned by the
free-address lookup for the resolved subnet id when no explicit address was given, the
one returned by the lookup of the explicit address otherwise), with exactly the
requested status code and comment, and the returned record's address and identity
both equal that entity's address. -/
theorem Create_commits_once_on_selected_entity {σ : Type} (c : Client σ) (now : String)
    (s : σ) (plan rec : resourceIPReservationModel)
    (h : (Create c now s plan).returned rec) :
    ∃ e : IPEntity,
      (if plan.IPAddress = "" then
        c.getFreeIpEntity s (c.getSubnetId s plan.VLANAddress).1 = (some e, none)
       else c.getIpEntityByAddress s plan.IPAddress = (some e, none)) ∧
      (Create c now s plan).commits = [Call.updateIpEntity e plan.StatusCode plan.Comment] ∧
      rec.IPAddress = e.IPAddress ∧ rec.ID = StringValue.known e.IPAddress := by
  obtain ⟨name, sid, e, s1, _, _, hs, _, hsel, _, heq⟩ :=
    Create_state_inv c now s plan rec h.2.2
  refine ⟨e, ?_, ?_, ?_, ?_⟩
  · by_cases hip : plan.IPAddress = ""
    · simpa [hip, hs] using hsel
    · simp only [hip, if_false] at hsel ⊢
      exact hsel.2.2.1
  · rw [heq]
    by_cases hip : plan.IPAddress = "" <;> by_cases hav : plan.AvoidDHCPScope = true <;>
      simp [Response.commits, hip, hav, Call.isUpdate]
  · have h3 := h.2.2
    rw [heq] at h3
    simp only [Option.some.injEq] at h3
    rw [← h3]
    rfl
  · have h3 := h.2.2
    rw [heq] at h3
    simp only [Option.some.injEq] at h3
    rw [← h3]
    rfl

/-- The example of C1: subnet `10.0.0.0`, mask 24, VLAN name `prod-a`, no DHCP
avoidance, no explicit address, one free entity `10.0.0.5`; `Create` returns the
record with address `10.0.0.5` and VLAN name `prod-a`, after one commit on that
entity. -/
theorem Create_commits_once_on_selected_entity_witness :
    (Create (inventoryClient dhcpScopeText) exampleNow exampleInventory
        exampleRequest).returned exampleRecord ∧
    exampleRecord.IPAddress = "10.0.0.5" ∧ exampleRecord.VLANName = "prod-a" ∧
    ∃ e : IPEntity,
      (if exampleRequest.IPAddress = "" then
        (inventoryClient dhcpScopeText).getFreeIpEntity exampleInventory
          ((inventoryClient dhcpScopeText).getSubnetId exampleInventory
            exampleRequest.VLANAddress).1 = (some e, none)
       else (inventoryClient dhcpScopeText).getIpEntityByAddress exampleInventory
          exampleRequest.IPAddress = (some e, none)) ∧
      (Create (inventoryClient dhcpScopeText) exampleNow exampleInventory
          exampleRequest).commits =
        [Call.updateIpEntity e exampleRequest.StatusCode exampleRequest.Comment] ∧
      exampleRecord.IPAddress = e.IPAddress ∧
      exampleRecord.ID = StringValue.known e.IPAddress :=
  ⟨⟨rfl, rfl, rfl⟩, rfl, rfl,
    Create_commits_once_on_selected_entity (inventoryClient dhcpScopeText) exampleNow
      exampleInventory exampleRequest exampleRecord ⟨rfl, rfl, rfl⟩⟩

/-! ## `Create` past the policy steps -/

/-- Once the name, subnet-id and DHCP-policy steps pass, `Create` is one of its two
arms. -/
theorem Create_after_policy {σ : Type} (c : Client σ) (now : String) (s : σ)
    (plan : resourceIPReservationModel) (name : String) (sid : Int)
    (hv : c.getVlanName s plan.VLANAddress = (name, none))
    (hn : plan.VLANName = "" ∨ plan.VLANName = name)
    (hs : c.getSubnetId s plan.VLANAddress = (sid, none))
    (hd : plan.AvoidDHCPScope = true → c.checkIfSubnetDHCP s plan.VLANAddress = (false, none)) :
    Create c now s plan =
      if plan.IPAddress = "" then allocateFree c now s (withName plan name) sid (policyCalls plan)
      else claimExplicit c now s (withName plan name) plan.IPAddress (policyCalls plan) := by
  have hn2 : ¬ (plan.VLANName ≠ "" ∧ plan.VLANName ≠ name) := by
    rintro ⟨h1, h2⟩
    rcases hn with h | h
    · exact h1 h
    · exact h2 h
  have hplan : (if plan.VLANName = "" then { plan with VLANName := name } else plan)
      = withName plan name := by
    by_cases h1 : plan.VLANName = ""
    · simp [h1, withName]
    · have h2 : plan.VLANName = name := hn.resolve_left h1
      simp only [h1, if_false, withName]
      cases plan
      simp at h2 ⊢
      exact h2
  have hdp : dhcpPolicy c s plan.AvoidDHCPScope plan.VLANAddress plan.IPAddress
      [Call.getVlanName plan.VLANAddress, Call.getSubnetId plan.VLANAddress]
      = (policyCalls plan, none) := by
    by_cases hav : plan.AvoidDHCPScope = true
    · simp [dhcpPolicy, hav, hd hav, policyCalls]
    · simp [dhcpPolicy, hav, policyCalls]
  simp only [Create, hv, hn2, hs, hdp, if_false, hplan, List.singleton_append]

/-! ## C3: an explicit address that is already assigned -/

/-- C3: for every `Create` request with an explicit address that passes the name,
subnet-id, DHCP-policy, syntax and subnet-membership checks and whose address lookup
returns an entity with status different from 2, `Create` fails with the
`AlreadyAssigned` error, issues no commit and persists no record. -/
theorem Create_explicit_assigned_fails {σ : Type} (c : Client σ) (now : String) (s : σ)
    (plan : resourceIPReservationModel) (name : String) (sid : Int) (e : IPEntity)
    (hip : plan.IPAddress ≠ "")
    (hv : c.getVlanName s plan.VLANAddress = (name, none))
    (hn : plan.VLANName = "" ∨ plan.VLANName = name)
    (hs : c.getSubnetId s plan.VLANAddress = (sid, none))
    (hd : plan.AvoidDHCPScope = true → c.checkIfSubnetDHCP s plan.VLANAddress = (false, none))
    (hsyn : c.validateAddresses plan.IPAddress = none)
    (hmem : c.validateAddresInSubnet plan.VLANAddress plan.VLANMask plan.IPAddress = none)
    (ha : c.getIpEntityByAddress s plan.IPAddress = (some e, none))
    (hst : e.Status ≠ 2) :
    (Create c now s plan).diagnostics = [createError alreadyAssignedDetail] ∧
    (Create c now s plan).panicked = false ∧
    (Create c now s plan).commits = [] ∧
    (Create c now s plan).state = none ∧
    (Create c now s plan).remote = s := by
  have hmem2 : c.validateAddresInSubnet (withName plan name).VLANAddress
      (withName plan name).VLANMask plan.IPAddress = none := hmem
  rw [Create_after_policy c now s plan name sid hv hn hs hd]
  simp only [hip, if_false, claimExplicit, hsyn, hmem2, ha, hst, ne_eq, not_false_eq_true,
    if_true]
  by_cases hav : plan.AvoidDHCPScope = true <;>
    simp [Response.commits, policyCalls, hav, Call.isUpdate]

/-- C3 at a concrete input: `10.0.0.5` is assigned to `db-01`, and a request for it
fails with `AlreadyAssigned` without a commit. -/
theorem Create_explicit_assigned_fails_witness :
    explicitRequest.IPAddress ≠ "" ∧ taken5.Status ≠ 2 ∧
    (Create (inventoryClient dhcpScopeText) exampleNow assignedInventory
        explicitRequest).diagnostics = [createError alreadyAssignedDetail] ∧
    (Create (inventoryClient dhcpScopeText) exampleNow assignedInventory
        explicitRequest).panicked = false ∧
    (Create (inventoryClient dhcpScopeText) exampleNow assignedInventory
        explicitRequest).commits = [] ∧
    (Create (inventoryClient dhcpScopeText) exampleNow assignedInventory
        explicitRequest).state = none ∧
    (Create (inventoryClient dhcpScopeText) exampleNow assignedInventory
        explicitRequest).remote = assignedInventory :=
  ⟨by decide, by decide,
    Create_explicit_assigned_fails (inventoryClient dhcpScopeText) exampleNow
      assignedInventory explicitRequest "prod-a" 1 taken5 (by decide) rfl (Or.inr rfl) rfl
      (by intro h; exact absurd h (by decide)) rfl rfl rfl (by decide)⟩

/-! ## C4: DHCP avoidance -/

/-- C4: for every `Create` request with `avoidDhcpScope` set whose name and subnet-id
steps pass and whose DHCP-scope lookup reports a DHCP scope, `Create` fails after the
three lookups of those steps, without any address lookup or commit and without
persisting a record: with the `DhcpScopeBlocked` error when no explicit address was
requested, with the `PolicyConflict` error otherwise. -/
theorem Create_dhcp_scope_refused {σ : Type} (c : Client σ) (now : String) (s : σ)
    (plan : resourceIPReservationModel) (name : String) (sid : Int)
    (hav : plan.AvoidDHCPScope = true)
    (hv : c.getVlanName s plan.VLANAddress = (name, none))
    (hn : plan.VLANName = "" ∨ plan.VLANName = name)
    (hs : c.getSubnetId s plan.VLANAddress = (sid, none))
    (hd : c.checkIfSubnetDHCP s plan.VLANAddress = (true, none)) :
    Create c now s plan =
      ⟨s, [Call.getVlanName plan.VLANAddress, Call.getSubnetId plan.VLANAddress,
           Call.checkIfSubnetDHCP plan.VLANAddress], false,
        [createError (if plan.IPAddress = "" then dhcpScopeBlockedDetail
                      else policyConflictDetail)], none⟩ := by
  have hn2 : ¬ (plan.VLANName ≠ "" ∧ plan.VLANName ≠ name) := by
    rintro ⟨h1, h2⟩
    rcases hn with h | h
    · exact h1 h
    · exact h2 h
  by_cases hip : plan.IPAddress = "" <;>
    simp [Create, hv, hn2, hs, dhcpPolicy, hav, hd, hip]

/-- C4 at concrete inputs: against the DHCP scope `10.0.2.0`, the request without an
address fails with `DhcpScopeBlocked` and the request for `10.0.2.7` with
`PolicyConflict`, each after three lookups and no commit. -/
theorem Create_dhcp_scope_refused_witness :
    Create (inventoryClient dhcpScopeText) exampleNow dhcpInventory dhcpRequest =
      ⟨dhcpInventory, [Call.getVlanName "10.0.2.0", Call.getSubnetId "10.0.2.0",
        Call.checkIfSubnetDHCP "10.0.2.0"], false,
        [createError dhcpScopeBlockedDetail], none⟩ ∧
    Create (inventoryClient dhcpScopeText) exampleNow dhcpInventory dhcpExplicitRequest =
      ⟨dhcpInventory, [Call.getVlanName "10.0.2.0", Call.getSubnetId "10.0.2.0",
        Call.checkIfSubnetDHCP "10.0.2.0"], false,
        [createError policyConflictDetail], none⟩ :=
  ⟨Create_dhcp_scope_refused (inventoryClient dhcpScopeText) exampleNow dhcpInventory
      dhcpRequest "lab-dhcp" 3 rfl rfl (Or.inl rfl) rfl rfl,
   Create_dhcp_scope_refused (inventoryClient dhcpScopeText) exampleNow dhcpInventory
      dhcpExplicitRequest "lab-dhcp" 3 rfl rfl (Or.inl rfl) rfl rfl⟩

/-! ## `Create` stops at the first failing check -/

/-- The automatic arm returns the first failure of its list of checks. -/
theorem allocateFree_first_failure {σ : Type} (c : Client σ) (now : String) (s : σ)
    (plan : resourceIPReservationModel) (sid : Int) (t0 t : List Call) (d : Diagnostic)
    (h : firstFailure
      [⟨some (Call.getFreeIpEntity sid), (c.getFreeIpEntity s sid).2.map createError⟩] t0
        = some (t, d)) :
    allocateFree c now s plan sid t0 = ⟨s, t, false, [d], none⟩ := by
  obtain ⟨r, hf⟩ : ∃ r, c.getFreeIpEntity s sid = r := ⟨_, rfl⟩
  rcases r with ⟨p, _ | err⟩
  · simp [firstFailure, hf] at h
  · simp [firstFailure, hf] at h
    simp [allocateFree, hf, h]

/-- The explicit arm returns the first failure of its list of checks. -/
theorem claimExplicit_first_failure {σ : Type} (c : Client σ) (now : String) (s : σ)
    (plan : resourceIPReservationModel) (ip : String) (t0 t : List Call) (d : Diagnostic)
    (h : firstFailure
      [ ⟨none, (c.validateAddresses ip).map createError⟩,
        ⟨none, (c.validateAddresInSubnet plan.VLANAddress plan.VLANMask ip).map createError⟩,
        ⟨some (Call.getIpEntityByAddress ip), (c.getIpEntityByAddress s ip).2.map createError⟩,
        ⟨none, match (c.getIpEntityByAddress s ip).1 with
          | some e => if e.Status ≠ 2 then some (createError alreadyAssignedDetail) else none
          | none => none⟩ ] t0 = some (t, d)) :
    claimExplicit c now s plan ip t0 = ⟨s, t, false, [d], none⟩ := by
  obtain ⟨r, hsyn⟩ : ∃ r, c.validateAddresses ip = r := ⟨_, rfl⟩
  rcases r with _ | err
  swap
  · simp [firstFailure, hsyn] at h
    simp [claimExplicit, hsyn, h]
  obtain ⟨r, hmem⟩ : ∃ r, c.validateAddresInSubnet plan.VLANAddress plan.VLANMask ip = r :=
    ⟨_, rfl⟩
  rcases r with _ | err
  swap
  · simp [firstFailure, hsyn, hmem] at h
    simp [claimExplicit, hsyn, hmem, h]
  obtain ⟨r, ha⟩ : ∃ r, c.getIpEntityByAddress s ip = r := ⟨_, rfl⟩
  rcases r with ⟨p, _ | err⟩
  swap
  · simp [firstFailure, hsyn, hmem, ha] at h
    simp [claimExplicit, hsyn, hmem, ha, h]
  rcases p with _ | e
  · simp [firstFailure, hsyn, hmem, ha] at h
  by_cases hst : e.Status = 2
  · simp [firstFailure, hsyn, hmem, ha, hst] at h
  · simp [firstFailure, hsyn, hmem, ha, hst] at h
    simp [claimExplicit, hsyn, hmem, ha, hst, h]

/-- `Create` returns the calls and the error of the first failing check of
`createChecks`. -/
theorem Create_first_failure {σ : Type} (c : Client σ) (now : String) (s : σ)
    (plan : resourceIPReservationModel) (t : List Call) (d : Diagnostic)
    (h : firstFailure (createChecks c s plan) [] = some (t, d)) :
    Create c now s plan = ⟨s, t, false, [d], none⟩ := by
  obtain ⟨r, hv⟩ : ∃ r, c.getVlanName s plan.VLANAddress = r := ⟨_, rfl⟩
  rcases r with ⟨name, _ | err⟩
  swap
  · simp [createChecks, firstFailure, hv] at h
    simp [Create, hv, h]
  by_cases hn : plan.VLANName ≠ "" ∧ plan.VLANName ≠ name
  · simp [createChecks, firstFailure, hv, hn] at h
    simp [Create, hv, hn, h]
  obtain ⟨r, hs⟩ : ∃ r, c.getSubnetId s plan.VLANAddress = r := ⟨_, rfl⟩
  rcases r with ⟨sid, _ | err⟩
  swap
  · simp [createChecks, firstFailure, hv, hn, hs] at h
    simp [Create, hv, hn, hs, h]
  have hn1 : plan.VLANName = "" ∨ plan.VLANName = name := by
    by_cases h1 : plan.VLANName = ""
    · exact Or.inl h1
    · by_cases h2 : plan.VLANName = name
      · exact Or.inr h2
      · exact absurd ⟨h1, h2⟩ hn
  by_cases hav : plan.AvoidDHCPScope = true
  · obtain ⟨r, hd⟩ : ∃ r, c.checkIfSubnetDHCP s plan.VLANAddress = r := ⟨_, rfl⟩
    rcases r with ⟨b, _ | err⟩
    swap
    · simp [createChecks, firstFailure, hv, hn, hs, hav, hd] at h
      simp [Create, hv, hn, hs, dhcpPolicy, hav, hd, h]
    cases b
    swap
    · by_cases hip : plan.IPAddress = ""
      · simp [createChecks, firstFailure, hv, hn, hs, hav, hd, hip] at h
        simp [Create, hv, hn, hs, dhcpPolicy, hav, hd, hip, h]
      · simp [createChecks, firstFailure, hv, hn, hs, hav, hd, hip] at h
        simp [Create, hv, hn, hs, dhcpPolicy, hav, hd, hip, h]
    rw [Create_after_policy c now s plan name sid hv hn1 hs (fun _ => hd)]
    by_cases hip : plan.IPAddress = ""
    · simp only [hip, if_true]
      apply allocateFree_first_failure
      simpa [createChecks, firstFailure, hv, hn, hs, hav, hd, hip, policyCalls] using h
    · simp only [hip, if_false]
      apply claimExplicit_first_failure
      simpa [createChecks, firstFailure, hv, hn, hs, hav, hd, hip, policyCalls, withName]
        using h
  · rw [Create_after_policy c now s plan name sid hv hn1 hs (fun h1 => absurd h1 hav)]
    by_cases hip : plan.IPAddress = ""
    · simp only [hip, if_true]
      apply allocateFree_first_failure
      simpa [createChecks, firstFailure, hv, hn, hs, hav, hip, policyCalls] using h
    · simp only [hip, if_false]
      apply claimExplicit_first_failure
      simpa [createChecks, firstFailure, hv, hn, hs, hav, hip, policyCalls, withName]
        using h

/-- No check of `createChecks` issues a mutating call. -/
theorem createChecks_no_update {σ : Type} (c : Client σ) (s : σ)
    (plan : resourceIPReservationModel) :
    ∀ k ∈ createChecks c s plan, ∀ call ∈ k.call.toList, call.isUpdate = false := by
  intro k hk call hcall
  by_cases hav : plan.AvoidDHCPScope = true <;> by_cases hip : plan.IPAddress = ""
  · simp [createChecks, hav, hip] at hk
    rcases hk with rfl | rfl | rfl | rfl | rfl | rfl <;> simp_all [Call.isUpdate]
  · simp [createChecks, hav, hip] at hk
    rcases hk with rfl | rfl | rfl | rfl | rfl | rfl | rfl | rfl | rfl <;>
      simp_all [Call.isUpdate]
  · simp [createChecks, hav, hip] at hk
    rcases hk with rfl | rfl | rfl | rfl <;> simp_all [Call.isUpdate]
  · simp [createChecks, hav, hip] at hk
    rcases hk with rfl | rfl | rfl | rfl | rfl | rfl | rfl <;> simp_all [Call.isUpdate]

/-- Checks without mutating calls add no mutating call to the log. -/
theorem firstFailure_no_update (ks : List Check) (t0 t : List Call) (d : Diagnostic)
    (hks : ∀ k ∈ ks, ∀ call ∈ k.call.toList, call.isUpdate = false)
    (h : firstFailure ks t0 = some (t, d)) :
    t.filter Call.isUpdate = t0.filter Call.isUpdate := by
  induction ks generalizing t0 with
  | nil => simp [firstFailure] at h
  | cons k ks ih =>
    have hk : (k.call.toList).filter Call.isUpdate = [] := by
      rw [List.filter_eq_nil_iff]
      intro call hcall
      simp [hks k (List.mem_cons_self _ _) call hcall]
    have hrest : ∀ k ∈ ks, ∀ call ∈ k.call.toList, call.isUpdate = false :=
      fun x hx => hks x (List.mem_cons_of_mem _ hx)
    rcases hf : k.failure with _ | d1
    · simp only [firstFailure, hf] at h
      rw [ih _ hrest h, List.filter_append, hk, List.append_nil]
    · simp only [firstFailure, hf, Option.some.injEq, Prod.mk.injEq] at h
      rw [← h.1, List.filter_append, hk, List.append_nil]

/-- The commit stage adds exactly one mutating call. -/
theorem commitAndStore_commits {σ : Type} (c : Client σ) (now : String) (s : σ)
    (plan : resourceIPReservationModel) (e : IPEntity) (t : List Call) :
    (commitAndStore c now s plan e t).commits =
      t.filter Call.isUpdate ++ [Call.updateIpEntity e plan.StatusCode plan.Comment] := by
  obtain ⟨r, hu⟩ : ∃ r, c.updateIpEntity s e plan.StatusCode plan.Comment = r := ⟨_, rfl⟩
  rcases r with ⟨s1, _ | err⟩ <;>
    simp [commitAndStore, hu, Response.commits, List.filter_append, Call.isUpdate]

/-- The automatic arm issues at most one mutating call. -/
theorem allocateFree_commits_le {σ : Type} (c : Client σ) (now : String) (s : σ)
    (plan : resourceIPReservationModel) (sid : Int) (t : List Call)
    (ht : t.filter Call.isUpdate = []) :
    (allocateFree c now s plan sid t).commits.length ≤ 1 := by
  obtain ⟨r, hf⟩ : ∃ r, c.getFreeIpEntity s sid = r := ⟨_, rfl⟩
  rcases r with ⟨_ | e, _ | err⟩
  · simp [allocateFree, hf, Response.commits, List.filter_append, ht, Call.isUpdate]
  · simp [allocateFree, hf, Response.commits, List.filter_append, ht, Call.isUpdate]
  · simp only [allocateFree, hf]
    rw [commitAndStore_commits]
    simp [List.filter_append, ht, Call.isUpdate]
  · simp [allocateFree, hf, Response.commits, List.filter_append, ht, Call.isUpdate]

/-- The explicit arm issues at most one mutating call. -/
theorem claimExplicit_commits_le {σ : Type} (c : Client σ) (now : String) (s : σ)
    (plan : resourceIPReservationModel) (ip : String) (t : List Call)
    (ht : t.filter Call.isUpdate = []) :
    (claimExplicit c now s plan ip t).commits.length ≤ 1 := by
  obtain ⟨r, hsyn⟩ : ∃ r, c.validateAddresses ip = r := ⟨_, rfl⟩
  rcases r with _ | err
  swap
  · simp [claimExplicit, hsyn, Response.commits, ht]
  obtain ⟨r, hmem⟩ : ∃ r, c.validateAddresInSubnet plan.VLANAddress plan.VLANMask ip = r :=
    ⟨_, rfl⟩
  rcases r with _ | err
  swap
  · simp [claimExplicit, hsyn, hmem, Response.commits, ht]
  obtain ⟨r, ha⟩ : ∃ r, c.getIpEntityByAddress s ip = r := ⟨_, rfl⟩
  rcases r with ⟨_ | e, _ | err⟩
  · simp [claimExplicit, hsyn, hmem, ha, Response.commits, List.filter_append, ht,
      Call.isUpdate]
  · simp [claimExplicit, hsyn, hmem, ha, Response.commits, List.filter_append, ht,
      Call.isUpdate]
  · by_cases hst : e.Status = 2
    · simp only [claimExplicit, hsyn, hmem, ha, hst, ne_eq, not_true_eq_false, if_false]
      rw [commitAndStore_commits]
      simp [List.filter_append, ht, Call.isUpdate]
    · simp [claimExplicit, hsyn, hmem, ha, hst, Response.commits, List.filter_append, ht,
        Call.isUpdate]
  · simp [claimExplicit, hsyn, hmem, ha, Response.commits, List.filter_append, ht,
      Call.isUpdate]

/-- `Create` issues at most one mutating call. -/
theorem Create_commits_le_one {σ : Type} (c : Client σ) (now : String) (s : σ)
    (plan : resourceIPReservationModel) :
    (Create c now s plan).commits.length ≤ 1 := by
  obtain ⟨r, hv⟩ : ∃ r, c.getVlanName s plan.VLANAddress = r := ⟨_, rfl⟩
  rcases r with ⟨name, _ | err⟩
  swap
  · simp [Create, hv, Response.commits, Call.isUpdate]
  by_cases hn : plan.VLANName ≠ "" ∧ plan.VLANName ≠ name
  · simp [Create, hv, hn, Response.commits, Call.isUpdate]
  obtain ⟨r, hs⟩ : ∃ r, c.getSubnetId s plan.VLANAddress = r := ⟨_, rfl⟩
  rcases r with ⟨sid, _ | err⟩
  swap
  · simp [Create, hv, hn, hs, Response.commits, Call.isUpdate]
  have hn1 : plan.VLANName = "" ∨ plan.VLANName = name := by
    by_cases h1 : plan.VLANName = ""
    · exact Or.inl h1
    · by_cases h2 : plan.VLANName = name
      · exact Or.inr h2
      · exact absurd ⟨h1, h2⟩ hn
  have hpc : (policyCalls plan).filter Call.isUpdate = [] := by
    by_cases hav : plan.AvoidDHCPScope = true <;> simp [policyCalls, hav, Call.isUpdate]
  have hpass : (plan.AvoidDHCPScope = true →
      c.checkIfSubnetDHCP s plan.VLANAddress = (false, none)) →
      (Create c now s plan).commits.length ≤ 1 := by
    intro hd
    rw [Create_after_policy c now s plan name sid hv hn1 hs hd]
    by_cases hip : plan.IPAddress = ""
    · simp only [hip, if_true]
      exact allocateFree_commits_le c now s _ sid _ hpc
    · simp only [hip, if_false]
      exact claimExplicit_commits_le c now s _ _ _ hpc
  by_cases hav : plan.AvoidDHCPScope = true
  · obtain ⟨r, hd⟩ : ∃ r, c.checkIfSubnetDHCP s plan.VLANAddress = r := ⟨_, rfl⟩
    rcases r with ⟨b, _ | err⟩
    swap
    · simp [Create, hv, hn, hs, dhcpPolicy, hav, hd, Response.commits, Call.isUpdate]
    cases b
    · exact hpass (fun _ => hd)
    · by_cases hip : plan.IPAddress = "" <;>
        simp [Create, hv, hn, hs, dhcpPolicy, hav, hd, hip, Response.commits, Call.isUpdate]
  · exact hpass (fun h1 => absurd h1 hav)
/-- A list with a failing check has a first failure. -/
theorem firstFailure_of_failing (ks : List Check) (t0 : List Call)
    (h : ∃ k ∈ ks, k.failure ≠ none) :
    ∃ t d, firstFailure ks t0 = some (t, d) := by
  induction ks generalizing t0 with
  | nil => simp at h
  | cons k ks ih =>
    rcases hf : k.failure with _ | d1
    · obtain ⟨x, hx, hxf⟩ := h
      rcases List.mem_cons.1 hx with rfl | hx
      · exact absurd hf hxf
      · simpa [firstFailure, hf] using ih _ ⟨x, hx, hxf⟩
    · exact ⟨t0 ++ k.call.toList, d1, by simp [firstFailure, hf]⟩

/-! ## C5: the order of the checks, and at most one commit -/

/-- C5: every `Create` issues at most one mutating call (`updateIpEntity`); whenever a
check preceding the commit fails, `Create` stops at the first failing check of the
fixed order (its calls are exactly those up to that check), returns that check's
error, has issued no mutating call and persists no record; in particular, with no
explicit address and a failing free-address lookup, it fails with the lookup's error
(`NoFreeAddress`) and no commit. -/
theorem Create_stops_at_first_failing_check {σ : Type} (c : Client σ) (now : String)
    (s : σ) (plan : resourceIPReservationModel) :
    (Create c now s plan).commits.length ≤ 1 ∧
    ((∃ k ∈ createChecks c s plan, k.failure ≠ none) →
      ∃ t d, firstFailure (createChecks c s plan) [] = some (t, d) ∧
        Create c now s plan = ⟨s, t, false, [d], none⟩ ∧
        (Create c now s plan).commits = []) ∧
    (∀ (name : String) (sid : Int) (p : Option IPEntity) (err : String),
      plan.IPAddress = "" →
      c.getVlanName s plan.VLANAddress = (name, none) →
      (plan.VLANName = "" ∨ plan.VLANName = name) →
      c.getSubnetId s plan.VLANAddress = (sid, none) →
      (plan.AvoidDHCPScope = true →
        c.checkIfSubnetDHCP s plan.VLANAddress = (false, none)) →
      c.getFreeIpEntity s sid = (p, some err) →
      Create c now s plan =
        ⟨s, policyCalls plan ++ [Call.getFreeIpEntity sid], false, [createError err], none⟩ ∧
      (Create c now s plan).commits = []) := by
  refine ⟨Create_commits_le_one c now s plan, ?_, ?_⟩
  · intro hfail
    obtain ⟨t, d, htd⟩ := firstFailure_of_failing (createChecks c s plan) [] hfail
    have hC := Create_first_failure c now s plan t d htd
    refine ⟨t, d, htd, hC, ?_⟩
    rw [hC]
    simpa [Response.commits] using
      firstFailure_no_update _ [] t d (createChecks_no_update c s plan) htd
  · intro name sid p err hip hv hn hs hd hf
    have hC : Create c now s plan =
        ⟨s, policyCalls plan ++ [Call.getFreeIpEntity sid], false, [createError err], none⟩ := by
      rw [Create_after_policy c now s plan name sid hv hn hs hd]
      simp [hip, allocateFree, hf]
    refine ⟨hC, ?_⟩
    rw [hC]
    by_cases hav : plan.AvoidDHCPScope = true <;>
      simp [Response.commits, policyCalls, hav, Call.isUpdate]

/-- C5 at a concrete input: the only address record of `10.0.0.0/24` is assigned, and
the request without an explicit address fails with `NoFreeAddress` after the three
lookups, with no commit and no record. -/
theorem Create_stops_at_first_failing_check_witness :
    (∃ k ∈ createChecks (inventoryClient dhcpScopeText) assignedInventory exampleRequest,
      k.failure ≠ none) ∧
    Create (inventoryClient dhcpScopeText) exampleNow assignedInventory exampleRequest =
      ⟨assignedInventory, [Call.getVlanName "10.0.0.0", Call.getSubnetId "10.0.0.0",
        Call.getFreeIpEntity 1], false, [createError "NoFreeAddress"], none⟩ ∧
    (Create (inventoryClient dhcpScopeText) exampleNow assignedInventory
      exampleRequest).commits = [] :=
  ⟨⟨⟨some (Call.getFreeIpEntity 1), some (createError "NoFreeAddress")⟩, by decide,
      by decide⟩,
    (Create_stops_at_first_failing_check (inventoryClient dhcpScopeText) exampleNow
      assignedInventory exampleRequest).2.2 "prod-a" 1 none "NoFreeAddress" rfl rfl
      (Or.inr rfl) rfl (by intro h; exact absurd h (by decide)) rfl⟩

/-! ## C6: the VLAN name of the record -/

/-- C6: for every `Create` that returns a record, the record's VLAN name equals the
name resolved from the request's subnet address during that `Create`; a request that
supplies a non-empty expected name different from the resolved name yields no record
(it fails with `NameMismatch` after the name lookup alone, before the subnet id is
resolved); and a request with an empty expected name that yields a record yields one
carrying the resolved name. -/
theorem Create_record_carries_resolved_name {σ : Type} (c : Client σ) (now : String)
    (s : σ) (plan : resourceIPReservationModel) :
    (∀ rec, (Create c now s plan).state = some rec →
      rec.VLANName = (c.getVlanName s plan.VLANAddress).1) ∧
    (∀ name, c.getVlanName s plan.VLANAddress = (name, none) →
      plan.VLANName ≠ "" → plan.VLANName ≠ name →
      Create c now s plan =
        ⟨s, [Call.getVlanName plan.VLANAddress], false,
          [createError (nameMismatchDetail plan.VLANName name)], none⟩) ∧
    (∀ rec, plan.VLANName = "" → (Create c now s plan).state = some rec →
      (c.getVlanName s plan.VLANAddress).2 = none ∧
      rec.VLANName = (c.getVlanName s plan.VLANAddress).1) := by
  have key : ∀ rec, (Create c now s plan).state = some rec →
      (c.getVlanName s plan.VLANAddress).2 = none ∧
      rec.VLANName = (c.getVlanName s plan.VLANAddress).1 := by
    intro rec h
    obtain ⟨name, sid, e, s1, hv, _, _, _, _, _, heq⟩ := Create_state_inv c now s plan rec h
    rw [heq] at h
    simp only [Option.some.injEq] at h
    rw [← h, hv]
    exact ⟨rfl, rfl⟩
  refine ⟨fun rec h => (key rec h).2, ?_, fun rec _ h => key rec h⟩
  intro name hv h1 h2
  simp [Create, hv, h1, h2]

/-- C6 at concrete inputs: the request expecting `prod-b` against the subnet named
`prod-a` fails with `NameMismatch` after one lookup; the request with no expected name
yields a record named `prod-a`. -/
theorem Create_record_carries_resolved_name_witness :
    Create (inventoryClient dhcpScopeText) exampleNow exampleInventory mismatchRequest =
      ⟨exampleInventory, [Call.getVlanName "10.0.0.0"], false,
        [createError (nameMismatchDetail "prod-b" "prod-a")], none⟩ ∧
    (Create (inventoryClient dhcpScopeText) exampleNow exampleInventory unnamedRequest).state
      = some exampleRecord ∧
    exampleRecord.VLANName = "prod-a" :=
  ⟨(Create_record_carries_resolved_name (inventoryClient dhcpScopeText) exampleNow
      exampleInventory mismatchRequest).2.1 "prod-a" rfl (by decide) (by decide),
    rfl,
    ((Create_record_carries_resolved_name (inventoryClient dhcpScopeText) exampleNow
      exampleInventory unnamedRequest).2.2 exampleRecord rfl rfl).2⟩

/-! ## The lookups of the inventory -/

/-- A one-row lookup without error had exactly one row. -/
theorem oneRow_ok {α β : Type} (rows : List α) (zero : β) (f : α → β) (v : β)
    (h : oneRow rows zero f = (v, none)) : ∃ x, rows = [x] ∧ v = f x := by
  rcases rows with _ | ⟨x, _ | ⟨y, rest⟩⟩
  · simp [oneRow] at h
  · simp only [oneRow, Prod.mk.injEq, and_true] at h
    exact ⟨x, rfl, h.symm⟩
  · simp [oneRow] at h

/-- The entity of `findFreeAddress` is an entity of the inventory, of the given subnet,
with status 2. -/
theorem findFreeAddress_some (inv : Inventory) (sid : Int) (e : IPEntity) (err : GoError)
    (h : findFreeAddress inv sid = (some e, err)) :
    e ∈ inv.ipNodes ∧ e.SubnetId = sid ∧ e.Status = 2 := by
  unfold findFreeAddress at h
  split at h
  · rename_i x hf
    simp only [Prod.mk.injEq, Option.some.injEq] at h
    obtain ⟨rfl, _⟩ := h
    have h1 := List.find?_some hf
    have h2 := List.mem_of_find?_eq_some hf
    simp only [decide_eq_true_eq] at h1
    exact ⟨h2, h1.1, h1.2⟩
  · simp at h

/-- The entity of a successful `findByAddress` is the only row with that address. -/
theorem findByAddress_some (inv : Inventory) (a : String) (e : IPEntity)
    (h : findByAddress inv a = (some e, none)) :
    ipRows inv a = [e] ∧ e ∈ inv.ipNodes ∧ e.IPAddress = a := by
  obtain ⟨x, hx, hv⟩ := oneRow_ok _ _ _ _ h
  simp only [Option.some.injEq] at hv
  subst hv
  have hmem : e ∈ ipRows inv a := by rw [hx]; exact List.mem_singleton_self _
  simp only [ipRows, List.mem_filter, decide_eq_true_eq] at hmem
  exact ⟨hx, hmem.1, hmem.2⟩

/-! ## C7: where the recorded address comes from -/

/-- C7 as stated fails for an explicit address: with the mask width 16 supplied by the
caller, the request against `10.0.0.0` (subnet id 1) for `10.0.1.5` passes the
membership check and claims the free entity `10.0.1.5`, which belongs to subnet 2. -/
theorem Create_explicit_claims_entity_of_other_subnet :
    (Create (inventoryClient dhcpScopeText) exampleNow twoSubnets
      wideMaskRequest).returned wideMaskRecord ∧
    ((inventoryClient dhcpScopeText).getIpEntityByAddress twoSubnets
      wideMaskRequest.IPAddress).1 = some freeB5 ∧
    freeB5.SubnetId = 2 ∧
    ((inventoryClient dhcpScopeText).getSubnetId twoSubnets wideMaskRequest.VLANAddress).1 = 1 ∧
    ¬ recordedFromSourceSubnet (inventoryClient dhcpScopeText) twoSubnets wideMaskRequest
        wideMaskRecord := by
  refine ⟨⟨rfl, rfl, rfl⟩, rfl, rfl, rfl, ?_⟩
  rintro ⟨e, hsel, _, _, hsub⟩
  have hip : ¬ wideMaskRequest.IPAddress = "" := by decide
  rw [if_neg hip] at hsel
  have hfound : ((inventoryClient dhcpScopeText).getIpEntityByAddress twoSubnets
      wideMaskRequest.IPAddress).1 = some freeB5 := rfl
  rw [hfound] at hsel
  simp only [Option.some.injEq] at hsel
  subst hsel
  have hsid : ((inventoryClient dhcpScopeText).getSubnetId twoSubnets
      wideMaskRequest.VLANAddress).1 = 1 := rfl
  rw [hsid] at hsub
  exact absurd hsub (by decide)

/-- C7, amended: for every `Create` that returns a record, the recorded address is the
address of an entity of the inventory that had status 2 when `Create` looked it up.
Without an explicit address it is the entity of the free-address lookup for the
resolved subnet id, and belongs to that subnet.  With an explicit address it is the
entity found by that address, and the address passed the membership check against the
request's subnet address and mask; its `SubnetId` is not compared with the resolved
subnet id. -/
theorem Create_record_from_free_entity (dhcpKind : String → Bool) (now : String)
    (inv : Inventory) (plan rec : resourceIPReservationModel)
    (h : (Create (inventoryClient dhcpKind) now inv plan).returned rec) :
    ∃ e ∈ inv.ipNodes, rec.IPAddress = e.IPAddress ∧ e.Status = 2 ∧
      (if plan.IPAddress = "" then
        findFreeAddress inv (resolveSubnetId inv plan.VLANAddress).1 = (some e, none) ∧
        e.SubnetId = (resolveSubnetId inv plan.VLANAddress).1
       else
        findByAddress inv plan.IPAddress = (some e, none) ∧
        e.IPAddress = plan.IPAddress ∧
        validateAddressInSubnet plan.VLANAddress plan.VLANMask plan.IPAddress = none) := by
  obtain ⟨name, sid, e, s1, _, _, hs, _, hsel, _, heq⟩ :=
    Create_state_inv (inventoryClient dhcpKind) now inv plan rec h.2.2
  have hrec : rec.IPAddress = e.IPAddress := by
    have h3 := h.2.2
    rw [heq] at h3
    simp only [Option.some.injEq] at h3
    rw [← h3]
    rfl
  have hs1 : resolveSubnetId inv plan.VLANAddress = (sid, none) := hs
  by_cases hip : plan.IPAddress = ""
  · simp only [hip, if_true] at hsel ⊢
    have hf : findFreeAddress inv sid = (some e, none) := hsel
    obtain ⟨hmem, hsub, hst⟩ := findFreeAddress_some inv sid e none hf
    exact ⟨e, hmem, hrec, hst, by rw [hs1]; exact hf, by rw [hs1]; exact hsub⟩
  · simp only [hip, if_false] at hsel ⊢
    obtain ⟨_, hm, ha, hst⟩ := hsel
    have ha1 : findByAddress inv plan.IPAddress = (some e, none) := ha
    obtain ⟨_, hmem, haddr⟩ := findByAddress_some inv _ e ha1
    exact ⟨e, hmem, hrec, hst, ha1, haddr, hm⟩

/-- C7, amended, at the two concrete inputs: the automatic request of the example
records the free entity `10.0.0.5` of subnet 1, and the explicit request with mask 16
records `10.0.1.5`, found by its address. -/
theorem Create_record_from_free_entity_witness :
    (∃ e ∈ exampleInventory.ipNodes, exampleRecord.IPAddress = e.IPAddress ∧ e.Status = 2 ∧
      (if exampleRequest.IPAddress = "" then
        findFreeAddress exampleInventory
          (resolveSubnetId exampleInventory exampleRequest.VLANAddress).1 = (some e, none) ∧
        e.SubnetId = (resolveSubnetId exampleInventory exampleRequest.VLANAddress).1
       else
        findByAddress exampleInventory exampleRequest.IPAddress = (some e, none) ∧
        e.IPAddress = exampleRequest.IPAddress ∧
        validateAddressInSubnet exampleRequest.VLANAddress exampleRequest.VLANMask
          exampleRequest.IPAddress = none)) ∧
    (∃ e ∈ twoSubnets.ipNodes, wideMaskRecord.IPAddress = e.IPAddress ∧ e.Status = 2 ∧
      (if wideMaskRequest.IPAddress = "" then
        findFreeAddress twoSubnets
          (resolveSubnetId twoSubnets wideMaskRequest.VLANAddress).1 = (some e, none) ∧
        e.SubnetId = (resolveSubnetId twoSubnets wideMaskRequest.VLANAddress).1
       else
        findByAddress twoSubnets wideMaskRequest.IPAddress = (some e, none) ∧
        e.IPAddress = wideMaskRequest.IPAddress ∧
        validateAddressInSubnet wideMaskRequest.VLANAddress wideMaskRequest.VLANMask
          wideMaskRequest.IPAddress = none)) :=
  ⟨Create_record_from_free_entity dhcpScopeText exampleNow exampleInventory exampleRequest
      exampleRecord ⟨rfl, rfl, rfl⟩,
   Create_record_from_free_entity dhcpScopeText exampleNow twoSubnets wideMaskRequest
      wideMaskRecord ⟨rfl, rfl, rfl⟩⟩

/-! ## Lemmas on `Read` -/

/-- The substring test `containsChars` holds exactly for the infixes. -/
theorem containsChars_iff_infix (s sub : List Char) :
    containsChars s sub = true ↔ sub <:+: s := by
  induction s with
  | nil => simp [containsChars, List.isEmpty_iff]
  | cons c cs ih =>
    simp only [containsChars, Bool.or_eq_true, ih, List.infix_cons_iff,
      List.isPrefixOf_iff_prefix]

/-- Every string contains itself. -/
theorem stringsContains_self (s : String) : stringsContains s s = true := by
  simp only [stringsContains, containsChars_iff_infix]
  exact List.infix_refl _

/-- The rendering `String()` of an identity is never the string `dhcp`. -/
theorem StringValue_String_ne_dhcp (esc : String → String) (v : StringValue) :
    v.String esc ≠ "dhcp" := by
  cases v with
  | null =>
    show "<null>" ≠ "dhcp"
    decide
  | unknown =>
    show "<unknown>" ≠ "dhcp"
    decide
  | known x =>
    intro h
    have h2 := congrArg String.data h
    simp [StringValue.String] at h2

/-- The test of the placeholder branch of `Read` never holds. -/
theorem Read_not_placeholder (esc : String → String) (st : resourceIPReservationModel) :
    ¬ (st.ID.String esc = "dhcp" ∧ st.IPAddress = "dhcp") :=
  fun h => StringValue_String_ne_dhcp esc st.ID h.1

/-- `Read` once the VLAN-name check has passed: the address lookup and what follows. -/
theorem Read_after_name {σ : Type} (c : Client σ) (esc : String → String) (s : σ)
    (st : resourceIPReservationModel) (name : String)
    (hv : c.getVlanName s st.VLANAddress = (name, none))
    (hn : st.VLANName = "" ∨ st.VLANName = name) :
    Read c esc s st =
      match (c.getIpEntityByAddress s st.IPAddress).1 with
      | none =>
        ⟨s, [Call.getVlanName st.VLANAddress, Call.getIpEntityByAddress st.IPAddress], true, [],
          some st⟩
      | some ipEntity =>
        if stringsContains ipEntity.Comments st.Comment = false ∧ ipEntity.Status ≠ 2 then
          ⟨s, [Call.getVlanName st.VLANAddress, Call.getIpEntityByAddress st.IPAddress], false,
            [readError (ownershipLostDetail st.IPAddress st.Comment)], some st⟩
        else
          match c.checkIfSubnetDHCP s st.VLANAddress with
          | (_, some err) =>
            ⟨s, [Call.getVlanName st.VLANAddress, Call.getIpEntityByAddress st.IPAddress,
                Call.checkIfSubnetDHCP st.VLANAddress], false, [readError err], some st⟩
          | (dhcpScope, none) =>
            if st.AvoidDHCPScope = true ∧ dhcpScope = true then
              ⟨s, [Call.getVlanName st.VLANAddress, Call.getIpEntityByAddress st.IPAddress,
                  Call.checkIfSubnetDHCP st.VLANAddress], false, [readError policyDriftDetail],
                some st⟩
            else
              ⟨s, [Call.getVlanName st.VLANAddress, Call.getIpEntityByAddress st.IPAddress,
                  Call.checkIfSubnetDHCP st.VLANAddress], false, [],
                some { st with IPAddress := ipEntity.IPAddress }⟩ := by
  have hn2 : ¬ (st.VLANName ≠ "" ∧ st.VLANName ≠ name) := by
    rintro ⟨h1, h2⟩
    rcases hn with h | h
    · exact h1 h
    · exact h2 h
  simp only [Read, Read_not_placeholder, hv, hn2, if_false, List.singleton_append,
    List.cons_append, List.nil_append]

/-! ## C8: the ownership check of `Read` -/

/-- C8: for every `Read` of a non-placeholder record that passes the VLAN-name check
and whose stored address resolves to an entity: if the entity's comment does not
contain the stored ownership tag and its status is not 2, `Read` fails with the
`OwnershipLost` error after the two lookups and leaves the response state as the
persisted record; conversely, if the comment contains the tag or the status is 2, the
ownership step does not fail: `Read` goes on to the DHCP-scope lookup. -/
theorem Read_ownership_check {σ : Type} (c : Client σ) (esc : String → String) (s : σ)
    (st : resourceIPReservationModel) (name : String) (e : IPEntity)
    (_hp : ¬ isPlaceholder st)
    (hv : c.getVlanName s st.VLANAddress = (name, none))
    (hn : st.VLANName = "" ∨ st.VLANName = name)
    (ha : (c.getIpEntityByAddress s st.IPAddress).1 = some e) :
    (stringsContains e.Comments st.Comment = false ∧ e.Status ≠ 2 →
      Read c esc s st =
        ⟨s, [Call.getVlanName st.VLANAddress, Call.getIpEntityByAddress st.IPAddress], false,
          [readError (ownershipLostDetail st.IPAddress st.Comment)], some st⟩) ∧
    (stringsContains e.Comments st.Comment = true ∨ e.Status = 2 →
      (Read c esc s st).calls =
        [Call.getVlanName st.VLANAddress, Call.getIpEntityByAddress st.IPAddress,
          Call.checkIfSubnetDHCP st.VLANAddress]) := by
  rw [Read_after_name c esc s st name hv hn, ha]
  constructor
  · intro h
    simp only [h, ne_eq, not_false_eq_true, and_self, if_true]
  · intro h
    have hno : ¬ (stringsContains e.Comments st.Comment = false ∧ e.Status ≠ 2) := by
      rintro ⟨h1, h2⟩
      rcases h with h | h
      · simp [h1] at h
      · exact h2 h
    simp only [hno, if_false]
    obtain ⟨r, hd⟩ : ∃ r, c.checkIfSubnetDHCP s st.VLANAddress = r := ⟨_, rfl⟩
    rcases r with ⟨b, _ | err⟩
    · rw [hd]
      by_cases hpol : st.AvoidDHCPScope = true ∧ b = true
      · simp only [hpol, and_self, if_true]
      · simp only [hpol, if_false]
    · rw [hd]

/-- C8 at concrete inputs: the record of `10.0.0.5` for `web-01` is read against an
inventory where the address is assigned to `db-01` (ownership lost), and against one
where the comment contains `web-01` (the DHCP-scope lookup follows). -/
theorem Read_ownership_check_witness :
    ¬ isPlaceholder exampleRecord ∧
    (∀ esc, Read (inventoryClient dhcpScopeText) esc assignedInventory exampleRecord =
      ⟨assignedInventory, [Call.getVlanName "10.0.0.0", Call.getIpEntityByAddress "10.0.0.5"],
        false, [readError (ownershipLostDetail "10.0.0.5" "web-01")], some exampleRecord⟩) ∧
    (∀ esc, (Read (inventoryClient dhcpScopeText) esc ownedInventory exampleRecord).calls =
      [Call.getVlanName "10.0.0.0", Call.getIpEntityByAddress "10.0.0.5",
        Call.checkIfSubnetDHCP "10.0.0.0"]) :=
  ⟨by decide,
   fun esc => (Read_ownership_check (inventoryClient dhcpScopeText) esc assignedInventory
      exampleRecord "prod-a" taken5 (by decide) rfl (Or.inr rfl) rfl).1 ⟨rfl, by decide⟩,
   fun esc => (Read_ownership_check (inventoryClient dhcpScopeText) esc ownedInventory
      exampleRecord "prod-a" owned5 (by decide) rfl (Or.inr rfl) rfl).2 (Or.inl rfl)⟩

/-! ## C9: the DHCP placeholder -/

/-- C9 fails on the code: `Read` compares the rendering `state.ID.String()` of the
identity, which puts a known value between double quotes, with `dhcp`; the comparison
never holds, and on the placeholder record `Read` queries the inventory: the VLAN name
of the subnet, then the address `dhcp`, whose lookup fails, and `Read` crashes on the
nil entity. -/
theorem Read_placeholder_queries_inventory (esc : String → String) :
    isPlaceholder dhcpPlaceholder ∧
    Read (inventoryClient dhcpScopeText) esc dhcpInventory dhcpPlaceholder =
      ⟨dhcpInventory, [Call.getVlanName "10.0.2.0", Call.getIpEntityByAddress "dhcp"], true,
        [], some dhcpPlaceholder⟩ := by
  refine ⟨by decide, ?_⟩
  rw [Read_after_name (inventoryClient dhcpScopeText) esc dhcpInventory dhcpPlaceholder
    "lab-dhcp" rfl (Or.inr rfl)]
  rfl

/-! ## C10: a failed address lookup in `Read` -/

/-- C10 fails on the code: `Read` discards the error of `getIpEntityByAddress`, so its
outcome is the same as with a client whose lookup returns no error; and when the
lookup fails with a nil entity, as for the address `10.0.0.9` that the inventory does
not hold, `Read` reports no error and crashes on the nil entity. -/
theorem Read_discards_lookup_error :
    (∀ (σ : Type) (c : Client σ) (esc : String → String) (s : σ)
        (st : resourceIPReservationModel),
      Read c esc s st = Read c.dropLookupError esc s st) ∧
    findByAddress exampleInventory missingRecord.IPAddress = (none, some "NotFound") ∧
    (∀ esc, Read (inventoryClient dhcpScopeText) esc exampleInventory missingRecord =
      ⟨exampleInventory, [Call.getVlanName "10.0.0.0", Call.getIpEntityByAddress "10.0.0.9"],
        true, [], some missingRecord⟩) := by
  refine ⟨fun σ c esc s st => rfl, rfl, fun esc => ?_⟩
  rw [Read_after_name (inventoryClient dhcpScopeText) esc exampleInventory missingRecord
    "prod-a" rfl (Or.inr rfl)]
  rfl

/-! ## The inventory after a commit -/

/-- The partial update keeps the address. -/
theorem applyUpdate_IPAddress (e : IPEntity) (st : Int) (cm : String) (x : IPEntity) :
    (applyUpdate e st cm x).IPAddress = x.IPAddress := by
  unfold applyUpdate
  split <;> rfl

/-- The partial update sets status and comment on the entity itself. -/
theorem applyUpdate_self (e : IPEntity) (st : Int) (cm : String) :
    applyUpdate e st cm e = { e with Status := st, Comments := cm } := by
  simp [applyUpdate]

/-- A commit leaves the subnet rows unchanged. -/
theorem subnetRows_commit (inv : Inventory) (e : IPEntity) (st : Int) (cm : String)
    (a : String) : subnetRows (commit inv e st cm).1 a = subnetRows inv a := rfl

/-- After a commit, the rows of an address are the updated rows of before. -/
theorem ipRows_commit (inv : Inventory) (e : IPEntity) (st : Int) (cm : String)
    (a : String) :
    ipRows (commit inv e st cm).1 a = (ipRows inv a).map (applyUpdate e st cm) := by
  simp only [ipRows, commit, List.filter_map]
  congr 1
  apply List.filter_congr
  intro x _
  simp [applyUpdate_IPAddress]

/-- `Read` of a record against the inventory after the commit on its entity, the only
row with the record's address, returns the record. -/
theorem Read_after_commit (dhcpKind : String → Bool) (esc : String → String)
    (inv : Inventory) (e : IPEntity) (st : Int) (rec : resourceIPReservationModel)
    (hv : resolveVlanName inv rec.VLANAddress = (rec.VLANName, none))
    (hd : rec.AvoidDHCPScope = true →
      isDhcpScope dhcpKind inv rec.VLANAddress = (false, none))
    (hrows : ipRows inv rec.IPAddress = [e])
    (haddr : rec.IPAddress = e.IPAddress) :
    Read (inventoryClient dhcpKind) esc (commit inv e st rec.Comment).1 rec =
      ⟨(commit inv e st rec.Comment).1,
        [Call.getVlanName rec.VLANAddress, Call.getIpEntityByAddress rec.IPAddress,
          Call.checkIfSubnetDHCP rec.VLANAddress], false, [], some rec⟩ := by
  have hv1 : (inventoryClient dhcpKind).getVlanName (commit inv e st rec.Comment).1
      rec.VLANAddress = (rec.VLANName, none) := hv
  have hlook : ((inventoryClient dhcpKind).getIpEntityByAddress
      (commit inv e st rec.Comment).1 rec.IPAddress).1
        = some { e with Status := st, Comments := rec.Comment } := by
    show (findByAddress (commit inv e st rec.Comment).1 rec.IPAddress).1 = _
    simp only [findByAddress, ipRows_commit, hrows, List.map_cons, List.map_nil, oneRow,
      applyUpdate_self]
  obtain ⟨x, hx, _⟩ := oneRow_ok _ _ _ _ hv
  have hdh : (inventoryClient dhcpKind).checkIfSubnetDHCP (commit inv e st rec.Comment).1
      rec.VLANAddress = (dhcpKind x.GroupTypeText, none) := by
    show isDhcpScope dhcpKind (commit inv e st rec.Comment).1 rec.VLANAddress = _
    simp only [isDhcpScope, subnetRows_commit, hx, oneRow]
  have hpol : ¬ (rec.AvoidDHCPScope = true ∧ dhcpKind x.GroupTypeText = true) := by
    rintro ⟨h1, h2⟩
    have h3 := hd h1
    simp only [isDhcpScope, hx, oneRow, Prod.mk.injEq, and_true] at h3
    rw [h3] at h2
    exact absurd h2 (by decide)
  rw [Read_after_name (inventoryClient dhcpKind) esc _ rec rec.VLANName hv1 (Or.inr rfl),
    hlook]
  simp only [stringsContains_self, hdh, hpol, if_false, false_and, Bool.true_eq_false]
  congr 2
  cases rec
  simp only at haddr
  simp [haddr]

/-! ## C2: `Create` followed by `Read` -/

/-- C2 as stated fails when another entity holds the selected address: in
`overlapInventory` the automatic `Create` selects the free `10.0.0.5` of subnet 1 and
returns its record; the `Read` that follows finds two records with that address, the
lookup by address fails, and `Read` does not succeed (it crashes on the nil entity). -/
theorem Create_then_Read_duplicate_address :
    (Create (inventoryClient dhcpScopeText) exampleNow overlapInventory
      exampleRequest).returned exampleRecord ∧
    (Create (inventoryClient dhcpScopeText) exampleNow overlapInventory
      exampleRequest).commits = [Call.updateIpEntity free5 1 "web-01"] ∧
    (∀ esc, (Read (inventoryClient dhcpScopeText) esc
        (Create (inventoryClient dhcpScopeText) exampleNow overlapInventory
          exampleRequest).remote exampleRecord).panicked = true) ∧
    (∀ esc r, ¬ (Read (inventoryClient dhcpScopeText) esc
        (Create (inventoryClient dhcpScopeText) exampleNow overlapInventory
          exampleRequest).remote exampleRecord).returned r) := by
  have hread : ∀ esc, (Read (inventoryClient dhcpScopeText) esc
        (Create (inventoryClient dhcpScopeText) exampleNow overlapInventory
          exampleRequest).remote exampleRecord).panicked = true := by
    intro esc
    rw [Read_after_name (inventoryClient dhcpScopeText) esc
      (Create (inventoryClient dhcpScopeText) exampleNow overlapInventory
        exampleRequest).remote exampleRecord "prod-a" rfl (Or.inr rfl)]
    rfl
  refine ⟨⟨rfl, rfl, rfl⟩, rfl, hread, ?_⟩
  intro esc r hr
  have h1 := hr.1
  rw [hread esc] at h1
  exact absurd h1 (by decide)

/-- C2, amended: for every request and inventory on which `Create` succeeds, provided
that, when no explicit address was given, the selected entity is the only one of the
inventory with its address, a `Read` issued immediately afterwards on the record
`Create` produced, against the inventory as it stands after the commit, succeeds and
returns a record whose address and VLAN name are those of the record `Create`
returned. -/
theorem Create_then_Read_round_trip (dhcpKind : String → Bool) (esc : String → String)
    (now : String) (inv : Inventory) (plan rec : resourceIPReservationModel)
    (h : (Create (inventoryClient dhcpKind) now inv plan).returned rec)
    (huniq : plan.IPAddress = "" → (ipRows inv rec.IPAddress).length = 1) :
    ∃ rec', (Read (inventoryClient dhcpKind) esc
        (Create (inventoryClient dhcpKind) now inv plan).remote rec).returned rec' ∧
      rec'.IPAddress = rec.IPAddress ∧ rec'.VLANName = rec.VLANName := by
  obtain ⟨name, sid, e, s1, hv, _, _, hd, hsel, hu, heq⟩ :=
    Create_state_inv (inventoryClient dhcpKind) now inv plan rec h.2.2
  have hrec : rec = recordOf (withName plan name) now e := by
    have h3 := h.2.2
    rw [heq] at h3
    simp only [Option.some.injEq] at h3
    exact h3.symm
  have hs1 : s1 = (commit inv e plan.StatusCode plan.Comment).1 := by
    have hu1 : commit inv e plan.StatusCode plan.Comment = (s1, none) := hu
    rw [hu1]
  have hrows : ipRows inv e.IPAddress = [e] := by
    by_cases hip : plan.IPAddress = ""
    · simp only [hip, if_true] at hsel
      have hf : findFreeAddress inv sid = (some e, none) := hsel
      obtain ⟨hmem, _, _⟩ := findFreeAddress_some inv sid e none hf
      have hlen := huniq hip
      rw [hrec] at hlen
      have hlen1 : (ipRows inv e.IPAddress).length = 1 := hlen
      have hin : e ∈ ipRows inv e.IPAddress := by
        simp [ipRows, List.mem_filter, hmem]
      obtain ⟨x, hx⟩ := List.length_eq_one.1 hlen1
      rw [hx] at hin ⊢
      rw [List.mem_singleton.1 hin]
    · simp only [hip, if_false] at hsel
      have ha : findByAddress inv plan.IPAddress = (some e, none) := hsel.2.2.1
      obtain ⟨hr, _, haddr⟩ := findByAddress_some inv _ e ha
      rw [haddr]
      exact hr
  have hread := Read_after_commit dhcpKind esc inv e plan.StatusCode rec
    (by rw [hrec]; exact hv) (by rw [hrec]; exact hd) (by rw [hrec]; exact hrows)
    (by rw [hrec]; rfl)
  have hcm : rec.Comment = plan.Comment := by rw [hrec]; rfl
  rw [hcm, ← hs1] at hread
  refine ⟨rec, ?_, rfl, rfl⟩
  rw [heq]
  show (Read (inventoryClient dhcpKind) esc s1 rec).returned rec
  rw [hread]
  exact ⟨rfl, rfl, rfl⟩

/-- C2, amended, at the spec's example: `10.0.0.5` has one record in the inventory,
`Create` returns its record and the `Read` that follows returns a record with the
address `10.0.0.5` and the VLAN name `prod-a`. -/
theorem Create_then_Read_round_trip_witness :
    (Create (inventoryClient dhcpScopeText) exampleNow exampleInventory
      exampleRequest).returned exampleRecord ∧
    (ipRows exampleInventory exampleRecord.IPAddress).length = 1 ∧
    (∀ esc, ∃ rec', (Read (inventoryClient dhcpScopeText) esc
        (Create (inventoryClient dhcpScopeText) exampleNow exampleInventory
          exampleRequest).remote exampleRecord).returned rec' ∧
      rec'.IPAddress = "10.0.0.5" ∧ rec'.VLANName = "prod-a") :=
  ⟨⟨rfl, rfl, rfl⟩, rfl,
   fun esc => Create_then_Read_round_trip dhcpScopeText esc exampleNow exampleInventory
      exampleRequest exampleRecord ⟨rfl, rfl, rfl⟩ (fun _ => rfl)⟩

/-! ## C11: `Update` and `Delete` -/

/-- C11: `Update` and `Delete` are no-ops: for every persisted record and every
requested change, `Update` issues no remote call and leaves the remote state as it is
(a changed comment or status is not pushed to the inventory), `Delete` issues no remote
call and leaves the remote state as it is (the claimed entity keeps its status and
comment and is not returned to status 2: every lookup answers as before), and neither
reports an error nor crashes. -/
theorem Update_Delete_no_ops {σ : Type} (c : Client σ) (s : σ)
    (plan state : resourceIPReservationModel) :
    ((Update c s plan state).calls = [] ∧ (Update c s plan state).remote = s ∧
      (Update c s plan state).diagnostics = [] ∧ (Update c s plan state).panicked = false) ∧
    ((Delete c s state).calls = [] ∧ (Delete c s state).remote = s ∧
      (Delete c s state).diagnostics = [] ∧ (Delete c s state).panicked = false) ∧
    (∀ a, c.getIpEntityByAddress (Update c s plan state).remote a
        = c.getIpEntityByAddress s a) ∧
    (∀ a, c.getIpEntityByAddress (Delete c s state).remote a
        = c.getIpEntityByAddress s a) := by
  refine ⟨⟨rfl, rfl, rfl, rfl⟩, ⟨rfl, rfl, rfl, rfl⟩, fun a => ?_, fun a => ?_⟩
  · show c.getIpEntityByAddress s a = c.getIpEntityByAddress s a
    rfl
  · show c.getIpEntityByAddress s a = c.getIpEntityByAddress s a
    rfl

/-- C11 at a concrete input: with `10.0.0.5` claimed for `web-01` with status 1, an
`Update` to the comment `web-02` and status 4, and a `Delete`, both leave the entity
with the comment `web-01` and the status 1. -/
theorem Update_Delete_no_ops_witness :
    ((inventoryClient dhcpScopeText).getIpEntityByAddress
        (Update (inventoryClient dhcpScopeText) claimedInventory changedPlan
          exampleRecord).remote "10.0.0.5").1
      = some ⟨105, 1, "10.0.0.5", "web-01", 1, "swis://ipnode/105"⟩ ∧
    ((inventoryClient dhcpScopeText).getIpEntityByAddress
        (Delete (inventoryClient dhcpScopeText) claimedInventory exampleRecord).remote
          "10.0.0.5").1
      = some ⟨105, 1, "10.0.0.5", "web-01", 1, "swis://ipnode/105"⟩ ∧
    (Update (inventoryClient dhcpScopeText) claimedInventory changedPlan
      exampleRecord).calls = [] ∧
    (Delete (inventoryClient dhcpScopeText) claimedInventory exampleRecord).calls = [] := by
  have h := Update_Delete_no_ops (inventoryClient dhcpScopeText) claimedInventory
    changedPlan exampleRecord
  refine ⟨?_, ?_, h.1.1, h.2.1.1⟩
  · rw [h.2.2.1 "10.0.0.5"]
    rfl
  · rw [h.2.2.2 "10.0.0.5"]
    rfl

/-! ## The DHCP-scope lookup of `Create` -/

/-- The commit stage adds no DHCP-scope lookup. -/
theorem commitAndStore_dhcp_lookups {σ : Type} (c : Client σ) (now : String) (s : σ)
    (plan : resourceIPReservationModel) (e : IPEntity) (t : List Call) :
    (commitAndStore c now s plan e t).calls.filter Call.isDhcpLookup =
      t.filter Call.isDhcpLookup := by
  obtain ⟨r, hu⟩ : ∃ r, c.updateIpEntity s e plan.StatusCode plan.Comment = r := ⟨_, rfl⟩
  rcases r with ⟨s1, _ | err⟩ <;>
    simp [commitAndStore, hu, List.filter_append, Call.isDhcpLookup]

/-- The automatic arm adds no DHCP-scope lookup. -/
theorem allocateFree_dhcp_lookups {σ : Type} (c : Client σ) (now : String) (s : σ)
    (plan : resourceIPReservationModel) (sid : Int) (t : List Call) :
    (allocateFree c now s plan sid t).calls.filter Call.isDhcpLookup =
      t.filter Call.isDhcpLookup := by
  obtain ⟨r, hf⟩ : ∃ r, c.getFreeIpEntity s sid = r := ⟨_, rfl⟩
  rcases r with ⟨_ | e, _ | err⟩
  · simp [allocateFree, hf, List.filter_append, Call.isDhcpLookup]
  · simp [allocateFree, hf, List.filter_append, Call.isDhcpLookup]
  · simp only [allocateFree, hf]
    rw [commitAndStore_dhcp_lookups]
    simp [List.filter_append, Call.isDhcpLookup]
  · simp [allocateFree, hf, List.filter_append, Call.isDhcpLookup]

/-- The explicit arm adds no DHCP-scope lookup. -/
theorem claimExplicit_dhcp_lookups {σ : Type} (c : Client σ) (now : String) (s : σ)
    (plan : resourceIPReservationModel) (ip : String) (t : List Call) :
    (claimExplicit c now s plan ip t).calls.filter Call.isDhcpLookup =
      t.filter Call.isDhcpLookup := by
  obtain ⟨r, hsyn⟩ : ∃ r, c.validateAddresses ip = r := ⟨_, rfl⟩
  rcases r with _ | err
  swap
  · simp [claimExplicit, hsyn]
  obtain ⟨r, hmem⟩ : ∃ r, c.validateAddresInSubnet plan.VLANAddress plan.VLANMask ip = r :=
    ⟨_, rfl⟩
  rcases r with _ | err
  swap
  · simp [claimExplicit, hsyn, hmem]
  obtain ⟨r, ha⟩ : ∃ r, c.getIpEntityByAddress s ip = r := ⟨_, rfl⟩
  rcases r with ⟨_ | e, _ | err⟩
  · simp [claimExplicit, hsyn, hmem, ha, List.filter_append, Call.isDhcpLookup]
  · simp [claimExplicit, hsyn, hmem, ha, List.filter_append, Call.isDhcpLookup]
  · by_cases hst : e.Status = 2
    · simp only [claimExplicit, hsyn, hmem, ha, hst, ne_eq, not_true_eq_false, if_false]
      rw [commitAndStore_dhcp_lookups]
      simp [List.filter_append, Call.isDhcpLookup]
    · simp [claimExplicit, hsyn, hmem, ha, hst, List.filter_append, Call.isDhcpLookup]
  · simp [claimExplicit, hsyn, hmem, ha, List.filter_append, Call.isDhcpLookup]

/-- Without the flag, `Create` issues no DHCP-scope lookup. -/
theorem Create_no_dhcp_lookup {σ : Type} (c : Client σ) (now : String) (s : σ)
    (plan : resourceIPReservationModel) (hav : ¬ plan.AvoidDHCPScope = true) :
    (Create c now s plan).calls.filter Call.isDhcpLookup = [] := by
  obtain ⟨r, hv⟩ : ∃ r, c.getVlanName s plan.VLANAddress = r := ⟨_, rfl⟩
  rcases r with ⟨name, _ | err⟩
  swap
  · simp [Create, hv, Call.isDhcpLookup]
  by_cases hn : plan.VLANName ≠ "" ∧ plan.VLANName ≠ name
  · simp [Create, hv, hn, Call.isDhcpLookup]
  obtain ⟨r, hs⟩ : ∃ r, c.getSubnetId s plan.VLANAddress = r := ⟨_, rfl⟩
  rcases r with ⟨sid, _ | err⟩
  swap
  · simp [Create, hv, hn, hs, Call.isDhcpLookup]
  have hn1 : plan.VLANName = "" ∨ plan.VLANName = name := by
    by_cases h1 : plan.VLANName = ""
    · exact Or.inl h1
    · by_cases h2 : plan.VLANName = name
      · exact Or.inr h2
      · exact absurd ⟨h1, h2⟩ hn
  have hpc : (policyCalls plan).filter Call.isDhcpLookup = [] := by
    simp [policyCalls, hav, Call.isDhcpLookup]
  rw [Create_after_policy c now s plan name sid hv hn1 hs (fun h1 => absurd h1 hav)]
  by_cases hip : plan.IPAddress = ""
  · simp only [hip, if_true]
    rw [allocateFree_dhcp_lookups, hpc]
  · simp only [hip, if_false]
    rw [claimExplicit_dhcp_lookups, hpc]

/-! ## C12: the DHCP step of `Read` -/

/-- C12: for every `Read` of a non-placeholder record that passes the VLAN-name and
ownership checks (the address lookup gave the entity `e`), `Read` succeeds if and only
if the DHCP-scope lookup succeeds and it is not the case that `avoidDhcpScope` is set
and the subnet is a DHCP scope; that case fails with `PolicyDrift`.  The lookup is
performed regardless of the flag, and a failed lookup fails `Read` with the lookup's
error whatever the flag, whereas `Create` performs that lookup only when the flag is
set.  On success the record returned is the persisted record with the address set to
the entity's address, and nothing else changed. -/
theorem Read_dhcp_step {σ : Type} (c : Client σ) (esc : String → String) (s : σ)
    (st : resourceIPReservationModel) (name : String) (e : IPEntity)
    (_hp : ¬ isPlaceholder st)
    (hv : c.getVlanName s st.VLANAddress = (name, none))
    (hn : st.VLANName = "" ∨ st.VLANName = name)
    (ha : (c.getIpEntityByAddress s st.IPAddress).1 = some e)
    (hown : stringsContains e.Comments st.Comment = true ∨ e.Status = 2) :
    ((∃ rec, (Read c esc s st).returned rec) ↔
      ∃ b, c.checkIfSubnetDHCP s st.VLANAddress = (b, none) ∧
        ¬ (st.AvoidDHCPScope = true ∧ b = true)) ∧
    (st.AvoidDHCPScope = true → c.checkIfSubnetDHCP s st.VLANAddress = (true, none) →
      (Read c esc s st).diagnostics = [readError policyDriftDetail] ∧
      (Read c esc s st).state = some st) ∧
    (Read c esc s st).calls =
      [Call.getVlanName st.VLANAddress, Call.getIpEntityByAddress st.IPAddress,
        Call.checkIfSubnetDHCP st.VLANAddress] ∧
    (∀ b err, c.checkIfSubnetDHCP s st.VLANAddress = (b, some err) →
      (Read c esc s st).diagnostics = [readError err] ∧
      (Read c esc s st).state = some st) ∧
    (∀ now plan a, Call.checkIfSubnetDHCP a ∈ (Create c now s plan).calls →
      plan.AvoidDHCPScope = true) ∧
    (∀ rec, (Read c esc s st).returned rec →
      rec = { st with IPAddress := e.IPAddress }) := by
  have hno : ¬ (stringsContains e.Comments st.Comment = false ∧ e.Status ≠ 2) := by
    rintro ⟨h1, h2⟩
    rcases hown with h | h
    · simp [h1] at h
    · exact h2 h
  have hR := Read_after_name c esc s st name hv hn
  rw [ha] at hR
  simp only [hno, if_false] at hR
  have hcreate : ∀ now plan a, Call.checkIfSubnetDHCP a ∈ (Create c now s plan).calls →
      plan.AvoidDHCPScope = true := by
    intro now plan a hmem
    by_contra hav
    have hnil := Create_no_dhcp_lookup c now s plan hav
    have hin : Call.checkIfSubnetDHCP a ∈
        (Create c now s plan).calls.filter Call.isDhcpLookup :=
      List.mem_filter.2 ⟨hmem, rfl⟩
    rw [hnil] at hin
    exact absurd hin (List.not_mem_nil _)
  obtain ⟨r, hd⟩ : ∃ r, c.checkIfSubnetDHCP s st.VLANAddress = r := ⟨_, rfl⟩
  rcases r with ⟨b, _ | err⟩
  · by_cases hpol : st.AvoidDHCPScope = true ∧ b = true
    · have hR2 : Read c esc s st =
          ⟨s, [Call.getVlanName st.VLANAddress, Call.getIpEntityByAddress st.IPAddress,
            Call.checkIfSubnetDHCP st.VLANAddress], false, [readError policyDriftDetail],
            some st⟩ := by
        rw [hR, hd]
        simp only [hpol, and_self, if_true]
      rw [hR2, hd]
      refine ⟨⟨?_, ?_⟩, fun _ _ => ⟨rfl, rfl⟩, rfl, ?_, hcreate, ?_⟩
      · rintro ⟨rec, _, h2, _⟩
        simp at h2
      · rintro ⟨b2, hb2, hnot⟩
        simp only [Prod.mk.injEq, and_true] at hb2
        rw [← hb2] at hnot
        exact absurd hpol hnot
      · intro b2 err2 h
        simp at h
      · rintro rec ⟨_, h2, _⟩
        simp at h2
    · have hR2 : Read c esc s st =
          ⟨s, [Call.getVlanName st.VLANAddress, Call.getIpEntityByAddress st.IPAddress,
            Call.checkIfSubnetDHCP st.VLANAddress], false, [],
            some { st with IPAddress := e.IPAddress }⟩ := by
        rw [hR, hd]
        simp only [hpol, if_false]
      rw [hR2, hd]
      refine ⟨⟨fun _ => ⟨b, rfl, hpol⟩, fun _ => ⟨_, rfl, rfl, rfl⟩⟩, ?_, rfl, ?_, hcreate, ?_⟩
      · intro h1 h2
        simp only [Prod.mk.injEq, and_true] at h2
        exact absurd ⟨h1, h2⟩ hpol
      · intro b2 err2 h
        simp at h
      · rintro rec ⟨_, _, h3⟩
        simp only [Option.some.injEq] at h3
        exact h3.symm
  · have hR2 : Read c esc s st =
        ⟨s, [Call.getVlanName st.VLANAddress, Call.getIpEntityByAddress st.IPAddress,
          Call.checkIfSubnetDHCP st.VLANAddress], false, [readError err], some st⟩ := by
      rw [hR, hd]
    rw [hR2, hd]
    refine ⟨⟨?_, ?_⟩, ?_, rfl, ?_, hcreate, ?_⟩
    · rintro ⟨rec, _, h2, _⟩
      simp at h2
    · rintro ⟨b2, hb2, _⟩
      simp at hb2
    · intro _ h2
      simp at h2
    · intro b2 err2 h
      simp only [Prod.mk.injEq, Option.some.injEq] at h
      rw [h.2]
      exact ⟨rfl, rfl⟩
    · rintro rec ⟨_, h2, _⟩
      simp at h2

/-- C12 at concrete inputs: the record of `10.0.0.5` read against the static subnet
succeeds with the record unchanged; the record of `10.0.2.7`, made with DHCP avoidance,
read against the DHCP scope fails with `PolicyDrift`; and with the DHCP-scope lookup
failing, the `Read` of the record of `10.0.0.5`, whose flag is not set, fails with the
lookup's error. -/
theorem Read_dhcp_step_witness :
    ¬ isPlaceholder exampleRecord ∧ exampleRecord.AvoidDHCPScope = false ∧
    (∀ esc, (Read (inventoryClient dhcpScopeText) esc ownedInventory
      exampleRecord).returned exampleRecord) ∧
    (∀ esc, (Read (inventoryClient dhcpScopeText) esc dhcpInventory driftRecord).diagnostics
        = [readError policyDriftDetail] ∧
      (Read (inventoryClient dhcpScopeText) esc dhcpInventory driftRecord).state
        = some driftRecord) ∧
    (∀ esc, (Read dhcpLookupDown esc ownedInventory exampleRecord).diagnostics
        = [readError "TransportError"] ∧
      (Read dhcpLookupDown esc ownedInventory exampleRecord).state = some exampleRecord) := by
  refine ⟨by decide, rfl, fun esc => ?_, fun esc => ?_, fun esc => ?_⟩
  · have h := Read_dhcp_step (inventoryClient dhcpScopeText) esc ownedInventory
      exampleRecord "prod-a" owned5 (by decide) rfl (Or.inr rfl) rfl (Or.inl rfl)
    obtain ⟨rec, hrec⟩ := h.1.2 ⟨false, rfl, by decide⟩
    have heq := h.2.2.2.2.2 rec hrec
    rw [heq] at hrec
    exact hrec
  · exact (Read_dhcp_step (inventoryClient dhcpScopeText) esc dhcpInventory driftRecord
      "lab-dhcp" free7 (by decide) rfl (Or.inr rfl) rfl (Or.inr rfl)).2.1 rfl rfl
  · exact (Read_dhcp_step dhcpLookupDown esc ownedInventory exampleRecord "prod-a" owned5
      (by decide) rfl (Or.inr rfl) rfl (Or.inl rfl)).2.2.2.1 false "TransportError" rfl

end Orion
